import Mathlib

/-!
Verification of the incremental C++ reflection metadata engine
(meta_generator core: models, cache, generator, parser, driver).

The Python sources are shallowly embedded:
pure functions become Lean functions on `String` / `List Char`;
Python `dict` becomes an association list with Python's update semantics;
fallible code returns `Option` / `Except`; file-system reads become
`Option` inputs (`none` models an unreadable file); the external
libclang AST is modelled as a cursor tree supplied as input.
Python's dynamically typed JSON dictionaries become a `Json` inductive;
dynamically ill-typed values (which Python would silently accept or
fail on later) are mapped to `none` by the typed decoders, matching the
"dynamic typing becomes tagged records" convention of the design notes.
-/

/-! ## Python string primitives used by the sources -/

/-- Characters Python's `str.strip()` removes (ASCII whitespace). -/
def isPySpace (c : Char) : Bool :=
  c = ' ' || c = '\t' || c = '\n' || c = '\r' || c = Char.ofNat 11 || c = Char.ofNat 12

/-- Python `\w` on ASCII input: letters, digits and underscore. -/
def isWordChar (c : Char) : Bool :=
  c.isAlphanum || c = '_'

/-- Left brace character, kept as a named constant. -/
def lbrace : Char := Char.ofNat 123

/-- Right brace character, kept as a named constant. -/
def rbrace : Char := Char.ofNat 125

/-- Fuel-driven core of `removeSubstrAll`. -/
def removeSubstrAllAux (pat : List Char) : Nat → List Char → List Char
  | 0, s => s
  | _ + 1, [] => []
  | fuel + 1, c :: rest =>
    if pat.isPrefixOf (c :: rest) then
      removeSubstrAllAux pat fuel ((c :: rest).drop pat.length)
    else
      c :: removeSubstrAllAux pat fuel rest

/-- Python `s.replace(pat, "")`: delete all non-overlapping occurrences of
`pat`, scanning left to right. -/
def removeSubstrAll (pat s : List Char) : List Char :=
  removeSubstrAllAux pat s.length s

/-- Python `s.rstrip(set)`: drop trailing characters that are in `set`. -/
def pyRstripSet (set : List Char) (s : List Char) : List Char :=
  (s.reverse.dropWhile (fun c => set.contains c)).reverse

/-- Python `s.strip()`: drop surrounding ASCII whitespace. -/
def pyStrip (s : List Char) : List Char :=
  ((s.dropWhile isPySpace).reverse.dropWhile isPySpace).reverse

/-- Number of newline characters in the first `pos` characters;
Python `content[:pos].count('\n')`. -/
def countNewlines (s : List Char) (pos : Nat) : Nat :=
  ((s.take pos).filter (fun c => c = '\n')).length

/-- Python `s.splitlines()` restricted to `'\n'` separators, which is what
the sources rely on for their line-based marker checks. -/
def splitLinesAux : List Char → List Char → List String
  | acc, [] => [String.mk acc.reverse]
  | acc, c :: rest =>
    if c = '\n' then String.mk acc.reverse :: splitLinesAux [] rest
    else splitLinesAux (c :: acc) rest

/-- Split a string into lines at `'\n'`. -/
def splitLines (s : String) : List String :=
  splitLinesAux [] s.data

/-- Substring test, Python `marker in line`. -/
def containsSubstrAux (pat : List Char) : List Char → Bool
  | [] => pat.isPrefixOf ([] : List Char)
  | c :: rest => pat.isPrefixOf (c :: rest) || containsSubstrAux pat rest

/-- Python `pat in s` for strings. -/
def containsSubstr (s pat : String) : Bool :=
  containsSubstrAux pat.data s.data

/-! ## SHA-256 (the `hashlib` capability used by the cache)

Modelled from the external `hashlib` library per FIPS 180-4; the cache's
streaming in 8 KiB chunks does not change the digest of the byte stream. -/

/-- Truncate to a 32-bit word. -/
def w32 (x : Nat) : Nat := x % 4294967296

/-- Right rotation of a 32-bit word. -/
def rotr32 (n x : Nat) : Nat := w32 ((x >>> n) ||| (x <<< (32 - n)))

/-- SHA-256 round constants (FIPS 180-4, in decimal). -/
def sha256K : List Nat :=
  [1116352408, 1899447441, 3049323471, 3921009573, 961987163, 1508970993,
   2453635748, 2870763221, 3624381080, 310598401, 607225278, 1426881987,
   1925078388, 2162078206, 2614888103, 3248222580, 3835390401, 4022224774,
   264347078, 604807628, 770255983, 1249150122, 1555081692, 1996064986,
   2554220882, 2821834349, 2952996808, 3210313671, 3336571891, 3584528711,
   113926993, 338241895, 666307205, 773529912, 1294757372, 1396182291,
   1695183700, 1986661051, 2177026350, 2456956037, 2730485921, 2820302411,
   3259730800, 3345764771, 3516065817, 3600352804, 4094571909, 275423344,
   430227734, 506948616, 659060556, 883997877, 958139571, 1322822218,
   1537002063, 1747873779, 1955562222, 2024104815, 2227730452, 2361852424,
   2428436474, 2756734187, 3204031479, 3329325298]

/-- SHA-256 initial hash state (FIPS 180-4, in decimal). -/
def sha256H0 : List Nat :=
  [1779033703, 3144134277, 1013904242, 2773480762,
   1359893119, 2600822924, 528734635, 1541459225]

/-- Big-endian byte expansion of `x` to `n` bytes. -/
def beBytes (n x : Nat) : List Nat :=
  (List.range n).map (fun i => (x >>> (8 * (n - 1 - i))) % 256)

/-- Big-endian 32-bit word from four bytes. -/
def beWord (bs : List Nat) : Nat :=
  bs.foldl (fun acc b => acc * 256 + b % 256) 0

/-- SHA-256 message padding to a multiple of 64 bytes. -/
def sha256Pad (msg : List Nat) : List Nat :=
  let k := (120 - (msg.length + 1) % 64) % 64
  msg ++ [0x80] ++ List.replicate k 0 ++ beBytes 8 (msg.length * 8)

/-- Split a byte list into 64-byte chunks (fuel-driven). -/
def chunks64Aux : Nat → List Nat → List (List Nat)
  | 0, _ => []
  | _ + 1, [] => []
  | fuel + 1, bs => bs.take 64 :: chunks64Aux fuel (bs.drop 64)

/-- Split a (padded) byte list into 64-byte chunks. -/
def chunks64 (bs : List Nat) : List (List Nat) :=
  chunks64Aux bs.length bs

/-- Split a chunk into its sixteen initial schedule words. -/
def chunkWordsAux : Nat → List Nat → List Nat
  | 0, _ => []
  | fuel + 1, bs => beWord (bs.take 4) :: chunkWordsAux fuel (bs.drop 4)

/-- The sixteen 32-bit words of a 64-byte chunk. -/
def chunkWords (bs : List Nat) : List Nat :=
  chunkWordsAux 16 bs

/-- Extend the message schedule from 16 to 64 words. -/
def sha256ScheduleAux : Nat → Array Nat → Array Nat
  | 0, w => w
  | fuel + 1, w =>
    let i := w.size
    let w15 := w.getD (i - 15) 0
    let w2 := w.getD (i - 2) 0
    let s0 := (rotr32 7 w15) ^^^ (rotr32 18 w15) ^^^ (w15 >>> 3)
    let s1 := (rotr32 17 w2) ^^^ (rotr32 19 w2) ^^^ (w2 >>> 10)
    let wi := w32 (w.getD (i - 16) 0 + s0 + w.getD (i - 7) 0 + s1)
    sha256ScheduleAux fuel (w.push wi)

/-- The full 64-word message schedule of one chunk. -/
def sha256Schedule (chunk : List Nat) : List Nat :=
  (sha256ScheduleAux 48 (Array.mk (chunkWords chunk))).toList

/-- One SHA-256 compression round. -/
def sha256Round (st : Nat × Nat × Nat × Nat × Nat × Nat × Nat × Nat) (kw : Nat × Nat) :
    Nat × Nat × Nat × Nat × Nat × Nat × Nat × Nat :=
  let (a, b, c, d, e, f, g, h) := st
  let (k, w) := kw
  let s1 := (rotr32 6 e) ^^^ (rotr32 11 e) ^^^ (rotr32 25 e)
  let ch := (e &&& f) ^^^ ((4294967295 - e) &&& g)
  let temp1 := w32 (h + s1 + ch + k + w)
  let s0 := (rotr32 2 a) ^^^ (rotr32 13 a) ^^^ (rotr32 22 a)
  let maj := (a &&& b) ^^^ (a &&& c) ^^^ (b &&& c)
  let temp2 := w32 (s0 + maj)
  (w32 (temp1 + temp2), a, b, c, w32 (d + temp1), e, f, g)

/-- Compress one chunk into the running hash state. -/
def sha256Compress (h : List Nat) (chunk : List Nat) : List Nat :=
  let init := (h.getD 0 0, h.getD 1 0, h.getD 2 0, h.getD 3 0,
               h.getD 4 0, h.getD 5 0, h.getD 6 0, h.getD 7 0)
  let (a, b, c, d, e, f, g, hh) := (sha256K.zip (sha256Schedule chunk)).foldl sha256Round init
  (List.zipWith (fun x y => w32 (x + y)) h [a, b, c, d, e, f, g, hh])

/-- SHA-256 of a byte list, as eight 32-bit words. -/
def sha256Words (msg : List Nat) : List Nat :=
  (chunks64 (sha256Pad msg)).foldl sha256Compress sha256H0

/-- Lowercase hex digit for a value below 16. -/
def hexDigit (d : Nat) : Char :=
  if d < 10 then Char.ofNat (48 + d) else Char.ofNat (87 + d)

/-- Eight lowercase hex digits of a 32-bit word. -/
def toHex8 (x : Nat) : String :=
  String.mk ((List.range 8).map (fun i => hexDigit ((x >>> (4 * (7 - i))) % 16)))

/-- Lowercase hex SHA-256 digest of a byte list, as `hashlib`'s
`hexdigest()` returns it. -/
def sha256hex (msg : List Nat) : String :=
  String.join ((sha256Words msg).map toHex8)

/-! ## models.py : primitive-type classification -/

/-- Primitive types for serialization (models.py `PRIMITIVE_TYPES`). -/
def PRIMITIVE_TYPES : List String :=
  ["bool",
   "int8_t", "int16_t", "int32_t", "int64_t",
   "signed char", "short", "int", "long", "long long",
   "uint8_t", "uint16_t", "uint32_t", "uint64_t",
   "unsigned char", "unsigned short", "unsigned int", "unsigned long", "unsigned long long",
   "float", "double",
   "eastl::string", "std::string", "PoolString",
   "eastl::basic_string<char>", "std::basic_string<char>",
   "char", "wchar_t", "char8_t", "char16_t", "char32_t"]

/-- Patterns that indicate primitive types (models.py `PRIMITIVE_PATTERNS`). -/
def PRIMITIVE_PATTERNS : List String :=
  ["eastl::basic_string", "std::basic_string", "PoolString"]

/-- models.py `is_primitive_type`: strip `const `/`volatile ` occurrences,
trailing `&`/`*`, surrounding whitespace, then test set membership or a
string-template pattern at the front. -/
def is_primitive_type (type_name : String) : Bool :=
  let clean1 := removeSubstrAll "const ".data type_name.data
  let clean2 := removeSubstrAll "volatile ".data clean1
  let cleanType := pyStrip (pyRstripSet ['&', '*'] clean2)
  PRIMITIVE_TYPES.contains (String.mk cleanType)
    || PRIMITIVE_PATTERNS.any (fun p => p.data.isPrefixOf cleanType)

/-! ## models.py : dataclasses -/

/-- models.py `MethodParam`. -/
structure MethodParam where
  name : String
  type_name : String
deriving DecidableEq, Repr

/-- models.py `FieldData` (raw record; Python construction always goes
through `FieldData.make` below, which runs `__post_init__`). -/
structure FieldData where
  name : String
  type_name : String
  line : Int := 0
  column : Int := 0
  is_primitive : Bool := false
deriving DecidableEq, Repr

/-- The Python `FieldData(...)` constructor including `__post_init__`:
when `is_primitive` is false it is recomputed from the type name. -/
def FieldData.make (name type_name : String) (line column : Int) (is_primitive : Bool) :
    FieldData :=
  { name, type_name, line, column,
    is_primitive := if !is_primitive then is_primitive_type type_name else is_primitive }

/-- models.py `MethodData`. -/
structure MethodData where
  name : String
  return_type : String
  params : List MethodParam := []
  is_const : Bool := false
  is_virtual : Bool := false
  is_override : Bool := false
  line : Int := 0
deriving DecidableEq, Repr

/-- models.py `EnumValue`. -/
structure EnumValue where
  name : String
  value : Option Int := none
deriving DecidableEq, Repr

/-- models.py `EnumData` (`namespace_` stands for the Python field
`namespace`, a reserved word in Lean). -/
structure EnumData where
  name : String
  qualified_name : String
  namespace_ : String
  underlying_type : String := "int"
  values : List EnumValue := []
  line : Int := 0
deriving DecidableEq, Repr

/-- models.py `ClassData`. -/
structure ClassData where
  name : String
  qualified_name : String
  full_qualified_name : String
  namespace_ : String
  fields : List FieldData := []
  methods : List MethodData := []
  is_factory_base : Bool := false
  is_event : Bool := false
  parent_class : Option String := none
  source_file : String := ""
  line : Int := 0
deriving DecidableEq, Repr

/-- models.py `DerivedClassData`. -/
structure DerivedClassData where
  name : String
  short_name : String
  full_name : String
  source_file : String
  include_path : String := ""
deriving DecidableEq, Repr

/-- models.py `FactoryBaseData`. -/
structure FactoryBaseData where
  name : String
  qualified_name : String
  full_qualified_name : String
  namespace_ : String
  enum_type_name : String := ""
  factory_name : String := ""
  derived : List DerivedClassData := []
deriving DecidableEq, Repr

/-- models.py `FileMetadata`. -/
structure FileMetadata where
  path : String
  content_hash : String
  last_scanned : String
  classes : List ClassData := []
  enums : List EnumData := []
deriving DecidableEq, Repr

/-! ## JSON values (what `json.load` / `json.dump` exchange) -/

/-- A parsed JSON value. Dictionaries are association lists with distinct
keys (Python's `json.load` collapses duplicates). -/
inductive Json where
  | null
  | bool (b : Bool)
  | num (n : Int)
  | str (s : String)
  | arr (xs : List Json)
  | obj (kvs : List (String × Json))

/-- Lookup in a Python dictionary modelled as an association list. -/
def dictLookup {α : Type} : List (String × α) → String → Option α
  | [], _ => none
  | (k, v) :: rest, key => if k = key then some v else dictLookup rest key

/-- Python dictionary assignment `d[k] = v`: replace in place if the key
exists, append otherwise. -/
def dictInsert {α : Type} : List (String × α) → String → α → List (String × α)
  | [], key, v => [(key, v)]
  | (k, w) :: rest, key, v =>
    if k = key then (key, v) :: rest else (k, w) :: dictInsert rest key v

/-- Decoder for `data["k"]` expected to be a string (missing key models
`KeyError`; an ill-typed value is mapped to failure by the typed model). -/
def jReqStr (kvs : List (String × Json)) (k : String) : Option String :=
  match dictLookup kvs k with
  | some (Json.str s) => some s
  | _ => none

/-- Decoder for `data.get("k", default)` expected to be an integer. -/
def jOptInt (kvs : List (String × Json)) (k : String) (dflt : Int) : Option Int :=
  match dictLookup kvs k with
  | none => some dflt
  | some (Json.num n) => some n
  | some _ => none

/-- Decoder for `data.get("k", default)` expected to be a boolean. -/
def jOptBool (kvs : List (String × Json)) (k : String) (dflt : Bool) : Option Bool :=
  match dictLookup kvs k with
  | none => some dflt
  | some (Json.bool b) => some b
  | some _ => none

/-- Decoder for `data.get("k", default)` expected to be a string. -/
def jOptStr (kvs : List (String × Json)) (k : String) (dflt : String) : Option String :=
  match dictLookup kvs k with
  | none => some dflt
  | some (Json.str s) => some s
  | some _ => none

/-- Decoder for `data.get("k")` holding an optional string (absent and
`null` both give Python `None`). -/
def jOptStrOrNone (kvs : List (String × Json)) (k : String) : Option (Option String) :=
  match dictLookup kvs k with
  | none => some none
  | some Json.null => some none
  | some (Json.str s) => some (some s)
  | some _ => none

/-- Decoder for `data.get("k")` holding an optional integer. -/
def jOptIntOrNone (kvs : List (String × Json)) (k : String) : Option (Option Int) :=
  match dictLookup kvs k with
  | none => some none
  | some Json.null => some none
  | some (Json.num n) => some (some n)
  | some _ => none

/-- Decoder for `data.get("k", [])` expected to be a list. -/
def jOptArr (kvs : List (String × Json)) (k : String) : Option (List Json) :=
  match dictLookup kvs k with
  | none => some []
  | some (Json.arr xs) => some xs
  | some _ => none

/-! ## models.py : to_dict / from_dict pairs -/

/-- `FieldData.to_dict`. -/
def FieldData.toDict (f : FieldData) : Json :=
  Json.obj [("name", Json.str f.name), ("type_name", Json.str f.type_name),
            ("line", Json.num f.line), ("column", Json.num f.column),
            ("is_primitive", Json.bool f.is_primitive)]

/-- `FieldData.from_dict`: required `name` and `type_name`, defaulted
`line`, `column`, `is_primitive`; the constructor reruns
`__post_init__` (see `FieldData.make`). -/
def FieldData.fromDict : Json → Option FieldData
  | Json.obj kvs => do
    let name ← jReqStr kvs "name"
    let type_name ← jReqStr kvs "type_name"
    let line ← jOptInt kvs "line" 0
    let column ← jOptInt kvs "column" 0
    let is_primitive ← jOptBool kvs "is_primitive" false
    pure (FieldData.make name type_name line column is_primitive)
  | _ => none

/-- `MethodData.to_dict` (the params dictionaries are built inline, as in
the source). -/
def MethodData.toDict (m : MethodData) : Json :=
  Json.obj [("name", Json.str m.name), ("return_type", Json.str m.return_type),
            ("params", Json.arr (m.params.map (fun p =>
              Json.obj [("name", Json.str p.name), ("type_name", Json.str p.type_name)]))),
            ("is_const", Json.bool m.is_const), ("is_virtual", Json.bool m.is_virtual),
            ("is_override", Json.bool m.is_override), ("line", Json.num m.line)]

/-- Decoder of one inline parameter dictionary of `MethodData.from_dict`. -/
def MethodParam.fromDict : Json → Option MethodParam
  | Json.obj kvs => do
    let name ← jReqStr kvs "name"
    let type_name ← jReqStr kvs "type_name"
    pure { name, type_name }
  | _ => none

/-- `MethodData.from_dict`. -/
def MethodData.fromDict : Json → Option MethodData
  | Json.obj kvs => do
    let name ← jReqStr kvs "name"
    let return_type ← jReqStr kvs "return_type"
    let paramsJson ← jOptArr kvs "params"
    let params ← paramsJson.mapM MethodParam.fromDict
    let is_const ← jOptBool kvs "is_const" false
    let is_virtual ← jOptBool kvs "is_virtual" false
    let is_override ← jOptBool kvs "is_override" false
    let line ← jOptInt kvs "line" 0
    pure { name, return_type, params, is_const, is_virtual, is_override, line }
  | _ => none

/-- `EnumValue.to_dict`. -/
def EnumValue.toDict (v : EnumValue) : Json :=
  Json.obj [("name", Json.str v.name),
            ("value", match v.value with | some n => Json.num n | none => Json.null)]

/-- `EnumValue.from_dict`. -/
def EnumValue.fromDict : Json → Option EnumValue
  | Json.obj kvs => do
    let name ← jReqStr kvs "name"
    let value ← jOptIntOrNone kvs "value"
    pure { name, value }
  | _ => none

/-- `EnumData.to_dict`. -/
def EnumData.toDict (e : EnumData) : Json :=
  Json.obj [("name", Json.str e.name), ("qualified_name", Json.str e.qualified_name),
            ("namespace", Json.str e.namespace_),
            ("underlying_type", Json.str e.underlying_type),
            ("values", Json.arr (e.values.map EnumValue.toDict)),
            ("line", Json.num e.line)]

/-- `EnumData.from_dict`. -/
def EnumData.fromDict : Json → Option EnumData
  | Json.obj kvs => do
    let name ← jReqStr kvs "name"
    let qualified_name ← jReqStr kvs "qualified_name"
    let namespace_ ← jReqStr kvs "namespace"
    let underlying_type ← jOptStr kvs "underlying_type" "int"
    let valuesJson ← jOptArr kvs "values"
    let values ← valuesJson.mapM EnumValue.fromDict
    let line ← jOptInt kvs "line" 0
    pure { name, qualified_name, namespace_, underlying_type, values, line }
  | _ => none

/-- `ClassData.to_dict`. -/
def ClassData.toDict (c : ClassData) : Json :=
  Json.obj [("name", Json.str c.name), ("qualified_name", Json.str c.qualified_name),
            ("full_qualified_name", Json.str c.full_qualified_name),
            ("namespace", Json.str c.namespace_),
            ("fields", Json.arr (c.fields.map FieldData.toDict)),
            ("methods", Json.arr (c.methods.map MethodData.toDict)),
            ("is_factory_base", Json.bool c.is_factory_base),
            ("is_event", Json.bool c.is_event),
            ("parent_class", match c.parent_class with
                             | some s => Json.str s
                             | none => Json.null),
            ("source_file", Json.str c.source_file),
            ("line", Json.num c.line)]

/-- `ClassData.from_dict`. -/
def ClassData.fromDict : Json → Option ClassData
  | Json.obj kvs => do
    let name ← jReqStr kvs "name"
    let qualified_name ← jReqStr kvs "qualified_name"
    let full_qualified_name ← jReqStr kvs "full_qualified_name"
    let namespace_ ← jReqStr kvs "namespace"
    let fieldsJson ← jOptArr kvs "fields"
    let fields ← fieldsJson.mapM FieldData.fromDict
    let methodsJson ← jOptArr kvs "methods"
    let methods ← methodsJson.mapM MethodData.fromDict
    let is_factory_base ← jOptBool kvs "is_factory_base" false
    let is_event ← jOptBool kvs "is_event" false
    let parent_class ← jOptStrOrNone kvs "parent_class"
    let source_file ← jOptStr kvs "source_file" ""
    let line ← jOptInt kvs "line" 0
    pure { name, qualified_name, full_qualified_name, namespace_, fields, methods,
           is_factory_base, is_event, parent_class, source_file, line }
  | _ => none

/-- `FileMetadata.to_dict`. -/
def FileMetadata.toDict (m : FileMetadata) : Json :=
  Json.obj [("path", Json.str m.path), ("content_hash", Json.str m.content_hash),
            ("last_scanned", Json.str m.last_scanned),
            ("classes", Json.arr (m.classes.map ClassData.toDict)),
            ("enums", Json.arr (m.enums.map EnumData.toDict))]

/-- `FileMetadata.from_dict`. -/
def FileMetadata.fromDict : Json → Option FileMetadata
  | Json.obj kvs => do
    let path ← jReqStr kvs "path"
    let content_hash ← jReqStr kvs "content_hash"
    let last_scanned ← jReqStr kvs "last_scanned"
    let classesJson ← jOptArr kvs "classes"
    let classes ← classesJson.mapM ClassData.fromDict
    let enumsJson ← jOptArr kvs "enums"
    let enums ← enumsJson.mapM EnumData.fromDict
    pure { path, content_hash, last_scanned, classes, enums }
  | _ => none

/-! ## cache.py : MetadataCache -/

/-- cache.py `MetadataCache.CACHE_VERSION` ("Bumped for is_primitive field
support"). -/
def MetadataCache.CACHE_VERSION : String := "1.1"

/-- Exceptions of the load path that are not caught by the source's
`except (json.JSONDecodeError, KeyError, TypeError)` handler. -/
inductive PyExn where
  | attributeError
deriving DecidableEq, Repr

/-- Decode the `files` object of the cache file; Python's loop assigns
entries one by one, and a raised `KeyError`/`TypeError` (here `none`)
discards everything. -/
def loadFilesEntries (fkvs : List (String × Json)) :
    Option (List (String × FileMetadata)) :=
  fkvs.mapM (fun pv => do
    let m ← FileMetadata.fromDict pv.2
    pure (pv.1, m))

/-- cache.py `MetadataCache.load`, as a function of the parsed disk
content: `none` models unreadable or malformed JSON (`json.load`
raised), `some j` the parsed value. The result is the returned boolean
together with the in-memory `files` map; `Except.error` marks an
exception the source does not catch (attribute access on a non-object). -/
def MetadataCache.load (disk : Option Json) :
    Except PyExn (Bool × List (String × FileMetadata)) :=
  match disk with
  | none => Except.ok (false, [])
  | some (Json.obj kvs) =>
    (match dictLookup kvs "version" with
     | some (Json.str v) =>
       if v = MetadataCache.CACHE_VERSION then
         match dictLookup kvs "files" with
         | none => Except.ok (true, [])
         | some (Json.obj fkvs) =>
           (match loadFilesEntries fkvs with
            | some entries => Except.ok (true, entries)
            | none => Except.ok (false, []))
         | some _ => Except.error PyExn.attributeError
       else Except.ok (false, [])
     | _ => Except.ok (false, []))
  | some _ => Except.error PyExn.attributeError

/-- cache.py `MetadataCache.get_file_hash`: streaming SHA-256 over the
file's bytes (the 8 KiB chunking does not change the digest); `none`
models a file that cannot be opened (`IOError`/`OSError`), which yields
the empty string. -/
def MetadataCache.getFileHash (content : Option (List Nat)) : String :=
  match content with
  | some bytes => sha256hex bytes
  | none => ""

/-- cache.py `MetadataCache.is_file_changed`: a file absent from the map
is changed; otherwise the current hash is compared with the stored one.
`pathStr` is the resolved path string and `content` the file's current
readable bytes. -/
def MetadataCache.isFileChanged (files : List (String × FileMetadata))
    (pathStr : String) (content : Option (List Nat)) : Bool :=
  match dictLookup files pathStr with
  | none => true
  | some meta => MetadataCache.getFileHash content != meta.content_hash

/-- cache.py `MetadataCache.update_file`: build fresh `FileMetadata` from
the currently-read bytes and assign it under the resolved path string. -/
def MetadataCache.updateFile (files : List (String × FileMetadata))
    (pathStr : String) (classes : List ClassData) (enums : List EnumData)
    (content : Option (List Nat)) (now : String) : List (String × FileMetadata) :=
  dictInsert files pathStr
    { path := pathStr
      content_hash := MetadataCache.getFileHash content
      last_scanned := now
      classes := classes
      enums := enums }

/-! ## generator.py : pure name computations -/

/-- Python `s[-i:]` for `1 ≤ i` (and `[]` at `i = 0`, the loop's initial
accumulator). -/
def pyTailSlice (s : List Char) (i : Nat) : List Char :=
  s.drop (s.length - i)

/-- The suffix-comparison loop of generator.py `compute_short_name`:
`for i in range(1, n + 1)` comparing `class_name[-i:]` with
`base_suffix[-i:]`, keeping the last matching slice and breaking at the
first mismatch. -/
def shortNameLoop (c b : List Char) : Nat → Nat → List Char → List Char
  | 0, _, acc => acc
  | fuel + 1, i, acc =>
    if pyTailSlice c i = pyTailSlice b i then
      shortNameLoop c b fuel (i + 1) (pyTailSlice c i)
    else acc

/-- generator.py `compute_short_name`: strip the common suffix between the
class name and the base name (base's leading `I` removed when the base
has length greater than one). -/
def compute_short_name (class_name base_name : String) : String :=
  let c := class_name.data
  let base_suffix :=
    if base_name.data.take 1 = ['I'] ∧ base_name.data.length > 1
    then base_name.data.drop 1 else base_name.data
  let n := min c.length base_suffix.length
  let common_suffix := shortNameLoop c base_suffix n 1 []
  let short_name :=
    if common_suffix ≠ [] ∧ common_suffix.length < c.length
    then c.take (c.length - common_suffix.length) else c
  let short_name := if short_name = [] then c else short_name
  String.mk short_name

/-- generator.py `compute_enum_type_name`. -/
def compute_enum_type_name (base_name : String) : String :=
  let name := if base_name.startsWith "I" && base_name.length > 1
              then base_name.drop 1 else base_name
  name ++ "Type"

/-- generator.py `compute_factory_name`. -/
def compute_factory_name (base_name : String) : String :=
  let name := if base_name.startsWith "I" && base_name.length > 1
              then base_name.drop 1 else base_name
  name ++ "Factory"

/-- Last path component, Python `Path(p).name` on a canonical
forward-slash path. -/
def pathBasename (p : String) : String :=
  match (p.data.reverse.takeWhile (fun c => c ≠ '/')).reverse with
  | [] => ""
  | cs => String.mk cs

/-- generator.py `compute_include_path`, modelled on canonicalized
forward-slash paths: the first include directory that is an ancestor of
the source file gives the relative remainder; otherwise fall back to the
file's base name. -/
def computeIncludePath (source_file : String) (include_dirs : List String) : String :=
  match include_dirs.findSome? (fun inc =>
    if (inc ++ "/").data.isPrefixOf source_file.data
    then some (String.mk (source_file.data.drop (inc.length + 1)))
    else none) with
  | some rel => rel
  | none => pathBasename source_file

/-- generator.py `compute_enum_output_filename`. -/
def compute_enum_output_filename (base_name : String) : String :=
  let name := if base_name.startsWith "I" && base_name.length > 1
              then base_name.drop 1 else base_name
  "Enum" ++ name ++ ".gen.hpp"

/-! ## generator.py : CodeGenerator -/

/-- One `DerivedClassData` of `CodeGenerator.build_factory_bases`. -/
def mkDerivedFor (include_dirs : List String) (base_cls cls : ClassData) :
    DerivedClassData :=
  { name := cls.name
    short_name := compute_short_name cls.name base_cls.name
    full_name := cls.full_qualified_name
    source_file := cls.source_file
    include_path := computeIncludePath cls.source_file include_dirs }

/-- The `FactoryBaseData` that `build_factory_bases` assembles for one
base class: its derived list collects, in order, every cached class
whose `parent_class` equals the base's simple name. -/
def mkFactoryBase (all_classes : List ClassData) (include_dirs : List String)
    (base_cls : ClassData) : FactoryBaseData :=
  { name := base_cls.name
    qualified_name := base_cls.qualified_name
    full_qualified_name := base_cls.full_qualified_name
    namespace_ := base_cls.namespace_
    enum_type_name := compute_enum_type_name base_cls.name
    factory_name := compute_factory_name base_cls.name
    derived := all_classes.filterMap (fun cls =>
      if cls.parent_class = some base_cls.name
      then some (mkDerivedFor include_dirs base_cls cls) else none) }

/-- The base-class loop of `build_factory_bases`: append the family only
when its derived list is non-empty. -/
def buildFactoryBasesLoop (all_classes : List ClassData)
    (include_dirs : List String) : List ClassData → List FactoryBaseData
  | [] => []
  | b :: rest =>
    let fb := mkFactoryBase all_classes include_dirs b
    if fb.derived ≠ [] then fb :: buildFactoryBasesLoop all_classes include_dirs rest
    else buildFactoryBasesLoop all_classes include_dirs rest

/-- generator.py `CodeGenerator.build_factory_bases`. -/
def buildFactoryBases (all_classes : List ClassData)
    (include_dirs : List String) : List FactoryBaseData :=
  buildFactoryBasesLoop all_classes include_dirs
    (all_classes.filter (fun c => c.is_factory_base))

/-- generator.py `CodeGenerator.generate_enum_factory`, modelled by the
name of the file it writes under the output directory: `none` means it
returns `None` immediately and writes nothing (empty derived list);
otherwise it renders the template and writes
`compute_enum_output_filename(base)`. -/
def generateEnumFactory (factory_base : FactoryBaseData)
    (_input_filename : String) : Option String :=
  if factory_base.derived = [] then none
  else some (compute_enum_output_filename factory_base.name)

/-! ## A small backtracking regex engine

The parser's `re` patterns use only literals, the classes `\w`, `\s`,
`[\w:]` and `[^...]`, greedy `*`/`+`, lazy `+?`, `(?:...)?`, groups and
alternation. Each pattern below is hand-compiled into this AST; the
matcher enumerates candidate match ends in Python's backtracking
priority order (alternatives left to right, greedy longest first, lazy
shortest first), so the head of the list is the match `re` would find. -/

/-- Single-character classes appearing in the sources' patterns. -/
inductive CharClass where
  | word
  | space
  | wordColon
  | notIn (cs : List Char)
deriving Repr

/-- Membership test of a character class. -/
def CharClass.test : CharClass → Char → Bool
  | CharClass.word, c => isWordChar c
  | CharClass.space, c => isPySpace c
  | CharClass.wordColon, c => isWordChar c || c = ':'
  | CharClass.notIn cs, c => !(cs.contains c)

/-- Regex AST: literals, one-character classes, greedy star and plus,
lazy plus, option, sequence, alternation and capturing groups. -/
inductive Rx where
  | lit (s : List Char)
  | one (p : CharClass)
  | star (p : CharClass)
  | plus (p : CharClass)
  | plusLazy (p : CharClass)
  | opt (r : Rx)
  | seq (rs : List Rx)
  | alt (rs : List Rx)
  | grp (idx : Nat) (r : Rx)

/-- Literal test at a position. -/
def litAt (content : List Char) (pat : List Char) (pos : Nat) : Bool :=
  pat.isPrefixOf (content.drop pos)

/-- Fuel-driven run length of a character class from a position. -/
def classRunAux (content : List Char) (p : CharClass) : Nat → Nat → Nat
  | 0, _ => 0
  | fuel + 1, pos =>
    match content.get? pos with
    | some c => if p.test c then classRunAux content p fuel (pos + 1) + 1 else 0
    | none => 0

/-- Length of the maximal run of `p`-characters starting at `pos`. -/
def classRun (content : List Char) (p : CharClass) (pos : Nat) : Nat :=
  classRunAux content p content.length pos

mutual

/-- All candidate `(match end, captures)` pairs of a regex at a position,
in backtracking priority order. -/
def rxMatch (content : List Char) : Rx → Nat → List (Nat × Nat × Nat) →
    List (Nat × List (Nat × Nat × Nat))
  | Rx.lit s, pos, caps => if litAt content s pos then [(pos + s.length, caps)] else []
  | Rx.one p, pos, caps =>
    match content.get? pos with
    | some c => if p.test c then [(pos + 1, caps)] else []
    | none => []
  | Rx.star p, pos, caps =>
    let m := classRun content p pos
    (List.range (m + 1)).map (fun k => (pos + m - k, caps))
  | Rx.plus p, pos, caps =>
    let m := classRun content p pos
    if m = 0 then [] else (List.range m).map (fun k => (pos + m - k, caps))
  | Rx.plusLazy p, pos, caps =>
    let m := classRun content p pos
    if m = 0 then [] else (List.range m).map (fun k => (pos + 1 + k, caps))
  | Rx.opt r, pos, caps => rxMatch content r pos caps ++ [(pos, caps)]
  | Rx.grp i r, pos, caps =>
    (rxMatch content r pos caps).map (fun ec => (ec.1, (i, pos, ec.1) :: ec.2))
  | Rx.seq rs, pos, caps => rxMatchSeq content rs pos caps
  | Rx.alt rs, pos, caps => rxMatchAlt content rs pos caps

/-- Sequential composition of candidate matches. -/
def rxMatchSeq (content : List Char) : List Rx → Nat → List (Nat × Nat × Nat) →
    List (Nat × List (Nat × Nat × Nat))
  | [], pos, caps => [(pos, caps)]
  | r :: rest, pos, caps =>
    (rxMatch content r pos caps).flatMap (fun ec => rxMatchSeq content rest ec.1 ec.2)

/-- Alternatives tried left to right. -/
def rxMatchAlt (content : List Char) : List Rx → Nat → List (Nat × Nat × Nat) →
    List (Nat × List (Nat × Nat × Nat))
  | [], _, _ => []
  | r :: rest, pos, caps => rxMatch content r pos caps ++ rxMatchAlt content rest pos caps

end

/-- A match: its span and its captures (group index, start, stop); a
repeated capture shadows the earlier one, a missing index means the
group did not participate. -/
structure RxMatch where
  start : Nat
  stop : Nat
  caps : List (Nat × Nat × Nat)
deriving Repr, DecidableEq

/-- Python `pattern.match(content, pos)`: the priority-first match
anchored at `pos`. -/
def rxMatchAt (content : List Char) (r : Rx) (pos : Nat) : Option RxMatch :=
  match rxMatch content r pos [] with
  | [] => none
  | (e, cs) :: _ => some { start := pos, stop := e, caps := cs }

/-- Fuel-driven scan of `re.search` start positions. -/
def rxSearchAux (content : List Char) (r : Rx) : Nat → Nat → Option RxMatch
  | 0, _ => none
  | fuel + 1, pos =>
    match rxMatchAt content r pos with
    | some m => some m
    | none => rxSearchAux content r fuel (pos + 1)

/-- Python `re.search` from a position: leftmost match. -/
def rxSearch (content : List Char) (r : Rx) (pos : Nat) : Option RxMatch :=
  rxSearchAux content r (content.length + 1 - pos) pos

/-- Fuel-driven scan of `re.finditer`. -/
def rxFindAllAux (content : List Char) (r : Rx) : Nat → Nat → List RxMatch
  | 0, _ => []
  | fuel + 1, pos =>
    match rxSearch content r pos with
    | none => []
    | some m =>
      m :: rxFindAllAux content r fuel (if m.stop > m.start then m.stop else m.stop + 1)

/-- Python `re.finditer`: non-overlapping matches, left to right. -/
def rxFindAll (content : List Char) (r : Rx) : List RxMatch :=
  rxFindAllAux content r (content.length + 1) 0

/-- Python `match.group(i)`: the captured text, or `None` when the group
did not participate. -/
def RxMatch.group (m : RxMatch) (content : List Char) (i : Nat) : Option String :=
  match m.caps.find? (fun t => t.1 = i) with
  | some (_, a, b) => some (String.mk ((content.drop a).take (b - a)))
  | none => none

/-- Python `a or b` on group results (both `None` and `""` are falsy). -/
def pyOrStr : Option String → Option String → Option String
  | some s, b => if s ≠ "" then some s else b
  | none, b => b

/-- Python `a or dflt` landing on a string default. -/
def pyOrStrD (a : Option String) (dflt : String) : String :=
  match a with
  | some s => if s ≠ "" then s else dflt
  | none => dflt

/-- Literal regex atom from a string. -/
def rlit (s : String) : Rx := Rx.lit s.data

/-! ## parser.py : RegexParser patterns -/

/-- First alternative of parser.py `ENUM_PATTERN`. -/
def enumPatAlt1 : Rx :=
  Rx.seq [rlit "enum", Rx.plus CharClass.space, rlit "class", Rx.plus CharClass.space,
          rlit "BE_REFLECT_ENUM", Rx.plus CharClass.space,
          Rx.grp 1 (Rx.plus CharClass.word), Rx.star CharClass.space,
          Rx.opt (Rx.seq [rlit ":", Rx.star CharClass.space, Rx.grp 2 (Rx.plus CharClass.word)]),
          Rx.star CharClass.space, Rx.lit [lbrace],
          Rx.grp 3 (Rx.star (CharClass.notIn [rbrace])), Rx.lit [rbrace]]

/-- Second alternative of parser.py `ENUM_PATTERN` (comment marker form). -/
def enumPatAlt2 : Rx :=
  Rx.seq [rlit "/*", Rx.star CharClass.space, rlit "BE_REFLECT_ENUM", Rx.star CharClass.space,
          rlit "*/", Rx.star CharClass.space, rlit "enum", Rx.plus CharClass.space,
          rlit "class", Rx.plus CharClass.space,
          Rx.grp 4 (Rx.plus CharClass.word), Rx.star CharClass.space,
          Rx.opt (Rx.seq [rlit ":", Rx.star CharClass.space, Rx.grp 5 (Rx.plus CharClass.word)]),
          Rx.star CharClass.space, Rx.lit [lbrace],
          Rx.grp 6 (Rx.star (CharClass.notIn [rbrace])), Rx.lit [rbrace]]

/-- Third alternative of parser.py `ENUM_PATTERN` (marker before `enum`). -/
def enumPatAlt3 : Rx :=
  Rx.seq [rlit "BE_REFLECT_ENUM", Rx.plus CharClass.space, rlit "enum", Rx.plus CharClass.space,
          rlit "class", Rx.plus CharClass.space,
          Rx.grp 7 (Rx.plus CharClass.word), Rx.star CharClass.space,
          Rx.opt (Rx.seq [rlit ":", Rx.star CharClass.space, Rx.grp 8 (Rx.plus CharClass.word)]),
          Rx.star CharClass.space, Rx.lit [lbrace],
          Rx.grp 9 (Rx.star (CharClass.notIn [rbrace])), Rx.lit [rbrace]]

/-- parser.py `RegexParser.ENUM_PATTERN`. -/
def ENUM_PATTERN : Rx := Rx.alt [enumPatAlt1, enumPatAlt2, enumPatAlt3]

/-- parser.py `RegexParser.STRUCT_CLASS_PATTERN`. -/
def STRUCT_CLASS_PATTERN : Rx :=
  Rx.seq [Rx.alt [rlit "struct", rlit "class"], Rx.plus CharClass.space,
          Rx.grp 1 (Rx.plus CharClass.word), Rx.star CharClass.space,
          Rx.opt (Rx.seq [rlit ":", Rx.star CharClass.space,
                          Rx.grp 2 (Rx.plus (CharClass.notIn [lbrace]))]),
          Rx.star CharClass.space, Rx.lit [lbrace]]

/-- parser.py `RegexParser.BE_CLASS_MACRO_PATTERN`. -/
def BE_CLASS_MACRO_PATTERN : Rx :=
  Rx.seq [rlit "BE_CLASS", Rx.star CharClass.space, rlit "(", Rx.star CharClass.space,
          Rx.grp 1 (Rx.plus CharClass.word), Rx.star CharClass.space,
          Rx.opt (Rx.seq [rlit ",", Rx.star CharClass.space,
                          Rx.grp 2 (Rx.plus CharClass.word), Rx.star CharClass.space]),
          rlit ")"]

/-- parser.py `RegexParser.PARENT_CLASS_PATTERN`. -/
def PARENT_CLASS_PATTERN : Rx :=
  Rx.seq [Rx.opt (Rx.alt [rlit "public", rlit "protected", rlit "private"]),
          Rx.star CharClass.space, Rx.grp 1 (Rx.plus CharClass.word)]

/-- First alternative of parser.py `FIELD_PATTERN`. -/
def fieldPatAlt1 : Rx :=
  Rx.seq [rlit "BE_REFLECT_FIELD", Rx.plus CharClass.space,
          Rx.grp 1 (Rx.plusLazy (CharClass.notIn [';', '='])),
          Rx.plus CharClass.space, Rx.grp 2 (Rx.plus CharClass.word), Rx.star CharClass.space,
          Rx.opt (Rx.seq [rlit "=", Rx.star CharClass.space, Rx.plus (CharClass.notIn [';'])]),
          rlit ";"]

/-- Second alternative of parser.py `FIELD_PATTERN` (comment marker form). -/
def fieldPatAlt2 : Rx :=
  Rx.seq [rlit "/*", Rx.star CharClass.space, rlit "BE_REFLECT_FIELD", Rx.star CharClass.space,
          rlit "*/", Rx.star CharClass.space,
          Rx.grp 3 (Rx.plusLazy (CharClass.notIn [';', '='])),
          Rx.plus CharClass.space, Rx.grp 4 (Rx.plus CharClass.word), Rx.star CharClass.space,
          Rx.opt (Rx.seq [rlit "=", Rx.star CharClass.space, Rx.plus (CharClass.notIn [';'])]),
          rlit ";"]

/-- parser.py `RegexParser.FIELD_PATTERN`. -/
def FIELD_PATTERN : Rx := Rx.alt [fieldPatAlt1, fieldPatAlt2]

/-- parser.py `RegexParser.METHOD_PATTERN`. -/
def METHOD_PATTERN : Rx :=
  Rx.seq [Rx.alt [Rx.seq [rlit "BE_FUNCTION", Rx.plus CharClass.space],
                  Rx.seq [rlit "/*", Rx.star CharClass.space, rlit "BE_FUNCTION",
                          Rx.star CharClass.space, rlit "*/", Rx.star CharClass.space]],
          Rx.opt (Rx.grp 1 (Rx.seq [rlit "virtual", Rx.plus CharClass.space])),
          Rx.grp 2 (Rx.plusLazy (CharClass.notIn ['('])), Rx.plus CharClass.space,
          Rx.grp 3 (Rx.plus CharClass.word), Rx.star CharClass.space,
          rlit "(", Rx.grp 4 (Rx.star (CharClass.notIn [')'])), rlit ")",
          Rx.star CharClass.space,
          Rx.opt (Rx.grp 5 (Rx.seq [rlit "const", Rx.star CharClass.space])),
          Rx.opt (Rx.grp 6 (Rx.seq [rlit "override", Rx.star CharClass.space])),
          Rx.opt (Rx.seq [rlit "=", Rx.star CharClass.space, rlit "0", Rx.star CharClass.space]),
          rlit ";"]

/-- The inner pattern of `_parse_enums` for enum constants. -/
def ENUM_VALUE_PATTERN : Rx :=
  Rx.seq [Rx.grp 1 (Rx.plus CharClass.word), Rx.star CharClass.space,
          Rx.opt (Rx.seq [rlit "=", Rx.star CharClass.space,
                          Rx.grp 2 (Rx.plus (CharClass.notIn [',', rbrace]))])]

/-- The namespace-declaration pattern of `_get_namespace_at_position`. -/
def NAMESPACE_PATTERN : Rx :=
  Rx.seq [rlit "namespace", Rx.plus CharClass.space,
          Rx.grp 1 (Rx.plus CharClass.wordColon), Rx.star CharClass.space, Rx.lit [lbrace]]

/-! ## parser.py : RegexParser namespace scan -/

/-- Fuel-driven pop of the namespace stack: drop trailing entries whose
recorded depth is at least the current depth. -/
def nsPopWhileAux (bd : Int) : Nat → List (String × Int) → List (String × Int)
  | 0, st => st
  | fuel + 1, st =>
    match st.getLast? with
    | some (_, d) => if d ≥ bd then nsPopWhileAux bd fuel st.dropLast else st
    | none => st

/-- Python `while ns_stack and ns_stack[-1][1] >= brace_depth: ns_stack.pop()`. -/
def nsPopWhile (bd : Int) (st : List (String × Int)) : List (String × Int) :=
  nsPopWhileAux bd st.length st

/-- The scanning loop of `_get_namespace_at_position`: walk the content up
to `position`, pushing namespace declarations with their brace depth and
popping them when their scope closes. -/
def nsLoopAux (content : List Char) (position : Nat) :
    Nat → Nat → Int → List (String × Int) → List (String × Int)
  | 0, _, _, st => st
  | fuel + 1, i, bd, st =>
    if i < position then
      match rxMatchAt content NAMESPACE_PATTERN i with
      | some m =>
        nsLoopAux content position fuel m.stop (bd + 1)
          (st ++ [((m.group content 1).getD "", bd)])
      | none =>
        match content.get? i with
        | some c =>
          if c = lbrace then nsLoopAux content position fuel (i + 1) (bd + 1) st
          else if c = rbrace then
            nsLoopAux content position fuel (i + 1) (bd - 1) (nsPopWhile (bd - 1) st)
          else nsLoopAux content position fuel (i + 1) bd st
        | none => nsLoopAux content position fuel (i + 1) bd st
    else st

/-- parser.py `RegexParser._get_namespace_at_position`. -/
def namespaceAtPosition (content : List Char) (position : Nat) : String :=
  let st := nsLoopAux content position (position + 1) 0 0 []
  if st = [] then "" else String.intercalate "::" (st.map (fun e => e.1))

/-! ## parser.py : RegexParser enums -/

/-- The enum-constant loop of `_parse_enums`. -/
def parseEnumValues (values_str : String) : List EnumValue :=
  (rxFindAll values_str.data ENUM_VALUE_PATTERN).filterMap (fun m =>
    match m.group values_str.data 1 with
    | some vname => if vname ≠ "" ∧ pyStrip vname.data ≠ [] then some { name := vname } else none
    | none => none)

/-- parser.py `RegexParser._parse_enums`. -/
def RegexParser.parseEnums (content : String) : List EnumData :=
  let cd := content.data
  (rxFindAll cd ENUM_PATTERN).filterMap (fun m =>
    match pyOrStr (pyOrStr (m.group cd 1) (m.group cd 4)) (m.group cd 7) with
    | none => none
    | some ename =>
      let underlying := pyOrStrD (pyOrStr (pyOrStr (m.group cd 2) (m.group cd 5)) (m.group cd 8)) "int"
      let values_str := pyOrStrD (pyOrStr (pyOrStr (m.group cd 3) (m.group cd 6)) (m.group cd 9)) ""
      let line_num := countNewlines cd m.start + 1
      let ns := namespaceAtPosition cd m.start
      let qualified := if ns ≠ "" then ns ++ "::" ++ ename else ename
      some { name := ename, qualified_name := qualified, namespace_ := ns,
             underlying_type := underlying, values := parseEnumValues values_str,
             line := (line_num : Int) })

/-! ## parser.py : RegexParser classes -/

/-- Fuel-driven brace matching of `_parse_classes`. -/
def findClassEndAux (content : List Char) : Nat → Nat → Nat → Nat
  | 0, pos, _ => pos
  | fuel + 1, pos, bc =>
    if pos < content.length ∧ bc > 0 then
      let c := content.getD pos ' '
      findClassEndAux content fuel (pos + 1)
        (if c = lbrace then bc + 1 else if c = rbrace then bc - 1 else bc)
    else pos

/-- Find the end of the class body that opens at `class_start`. -/
def findClassEnd (content : List Char) (class_start : Nat) : Nat :=
  findClassEndAux content (content.length + 1) (class_start + 1) 1

/-- Python `.upper()` on ASCII strings. -/
def pyUpper (s : String) : String := String.mk (s.data.map Char.toUpper)

/-- Strip trailing ASCII whitespace. -/
def dropTrailingWs (s : List Char) : List Char :=
  (s.reverse.dropWhile isPySpace).reverse

/-- Python `s.rsplit(None, 1)`: split off the last whitespace-separated
token; a whitespace-only string gives the empty list. -/
def pyRsplit1 (s : List Char) : List (List Char) :=
  let t := dropTrailingWs s
  if t = [] then []
  else
    let name := (t.reverse.takeWhile (fun c => !isPySpace c)).reverse
    let rest := dropTrailingWs (t.take (t.length - name.length))
    if rest = [] then [name] else [rest, name]

/-- The comma split of `_parse_method_params`, tracking `<`/`>` depth. -/
def splitParamsAux : List Char → Int → List Char → List (List Char)
  | [], _, current =>
    if pyStrip current.reverse ≠ [] then [pyStrip current.reverse] else []
  | ch :: rest, depth, current =>
    if ch = '<' then splitParamsAux rest (depth + 1) (ch :: current)
    else if ch = '>' then splitParamsAux rest (depth - 1) (ch :: current)
    else if ch = ',' ∧ depth = 0 then pyStrip current.reverse :: splitParamsAux rest depth []
    else splitParamsAux rest depth (ch :: current)

/-- Move leading `*`/`&` characters from the parameter name onto the
type, as the source's inner `while` loop does. -/
def moveRefChars : List Char → List Char → List Char × List Char
  | ptype, c :: rest =>
    if c = '*' ∨ c = '&' then moveRefChars (ptype ++ [c]) rest else (ptype, c :: rest)
  | ptype, [] => (ptype, [])

/-- parser.py `RegexParser._parse_method_params`. -/
def RegexParser.parseMethodParams (params_str : String) : List MethodParam :=
  if pyStrip params_str.data = [] then []
  else
    (splitParamsAux params_str.data 0 []).filterMap (fun param0 =>
      let param := pyStrip param0
      if param = [] then none
      else
        match pyRsplit1 param with
        | [ptype, pname] =>
          let (ptype2, pname2) := moveRefChars ptype pname
          some { name := String.mk (pyStrip pname2), type_name := String.mk (pyStrip ptype2) }
        | [single] => some { name := "", type_name := String.mk (pyStrip single) }
        | _ => none)

/-- parser.py `RegexParser._parse_classes`. -/
def RegexParser.parseClasses (content : String) (source_file : String) : List ClassData :=
  let cd := content.data
  (rxFindAll cd STRUCT_CLASS_PATTERN).filterMap (fun sm =>
    match sm.group cd 1 with
    | none => none
    | some struct_name =>
      let class_start := sm.stop - 1
      let class_end := findClassEnd cd class_start
      let class_body := (cd.drop class_start).take (class_end - class_start)
      match rxSearch class_body BE_CLASS_MACRO_PATTERN 0 with
      | none => none
      | some mm =>
        if struct_name ≠ (mm.group class_body 1).getD "" then none
        else
          let macroOpt := mm.group class_body 2
          let class_pos := sm.start
          let line_num := countNewlines cd class_pos + 1
          let ns := namespaceAtPosition cd class_pos
          let full_qualified := if ns ≠ "" then ns ++ "::" ++ struct_name else struct_name
          let qualified :=
            if "BECore::".data.isPrefixOf ns.data then
              String.mk (ns.data.drop 8) ++ "::" ++ struct_name
            else if ns = "BECore" then struct_name
            else full_qualified
          let parent_class :=
            match sm.group cd 2 with
            | some inh =>
              (match rxSearch (pyStrip inh.data) PARENT_CLASS_PATTERN 0 with
               | some pm => pm.group (pyStrip inh.data) 1
               | none => none)
            | none => none
          let fields := (rxFindAll class_body FIELD_PATTERN).filterMap (fun fm =>
            let type_name := String.mk (pyStrip
              (pyOrStrD (pyOrStr (fm.group class_body 1) (fm.group class_body 3)) "").data)
            match pyOrStr (fm.group class_body 2) (fm.group class_body 4) with
            | some fname =>
              if type_name ≠ "" ∧ fname ≠ "" then
                some (FieldData.make fname type_name
                  ((countNewlines class_body fm.start + line_num : Nat) : Int) 0 false)
              else none
            | none => none)
          let methods := (rxFindAll class_body METHOD_PATTERN).filterMap (fun m =>
            let method_name := String.mk (pyStrip ((m.group class_body 3).getD "").data)
            if method_name ≠ "" then
              some { name := method_name
                     return_type := String.mk (pyStrip ((m.group class_body 2).getD "").data)
                     params := RegexParser.parseMethodParams
                       (String.mk (pyStrip ((m.group class_body 4).getD "").data))
                     is_const := (m.group class_body 5).isSome
                     is_virtual := (m.group class_body 1).isSome
                     is_override := (m.group class_body 6).isSome
                     line := ((countNewlines class_body m.start + line_num : Nat) : Int) }
            else none)
          some { name := struct_name
                 qualified_name := qualified
                 full_qualified_name := full_qualified
                 namespace_ := ns
                 fields := fields
                 methods := methods
                 is_factory_base := (match macroOpt with
                                     | some o => pyUpper o = "FACTORY_BASE"
                                     | none => false)
                 parent_class := parent_class
                 source_file := source_file
                 line := (line_num : Int) })

/-- parser.py `RegexParser.parse_file`: `none` content models a file that
cannot be opened or decoded (returns empty lists); otherwise classes and
enums are parsed from the content. -/
def RegexParser.parseFile (fileContent : Option String) (pathStr : String) :
    List ClassData × List EnumData :=
  match fileContent with
  | none => ([], [])
  | some content =>
    (RegexParser.parseClasses content pathStr, RegexParser.parseEnums content)

/-! ## parser.py : LibclangParser over a model of the external AST

The libclang library is external; a translation unit is modelled as a
tree of cursors carrying the attributes the source reads (kind,
spelling, type spelling, location, constness, tokens, arguments). The
cursor walk, class/enum extraction and annotation checks are the
source's own code and are embedded below; ancestors stand for the
`semantic_parent` chain at the walk position. -/

/-- Cursor kinds the source dispatches on. -/
inductive CKind where
  | translationUnit
  | namespaceDecl
  | classDecl
  | structDecl
  | enumDecl
  | fieldDecl
  | cxxMethod
  | cxxBaseSpec
  | annotateAttr
  | otherKind
deriving DecidableEq, Repr

/-- The attributes of one cursor that parser.py reads. -/
structure CursorInfo where
  kind : CKind
  spelling : String := ""
  typeSpelling : String := ""
  resultTypeSpelling : String := ""
  locFile : Option String := none
  line : Nat := 0
  col : Nat := 0
  isConstMethod : Bool := false
  isVirtualMethod : Bool := false
  tokens : List String := []
  args : List (String × String) := []
deriving Repr

/-- A cursor tree: one node's attributes plus its children. -/
inductive Cursor where
  | node (info : CursorInfo) (children : List Cursor)

/-- Attributes of a cursor. -/
def Cursor.info : Cursor → CursorInfo
  | Cursor.node i _ => i

/-- Children of a cursor. -/
def Cursor.children : Cursor → List Cursor
  | Cursor.node _ cs => cs

/-- parser.py `LibclangParser._get_namespace`: the `::`-joined spellings
of the enclosing namespace cursors, outermost first. -/
def getNamespaceOf (ancestors : List CursorInfo) : String :=
  String.intercalate "::"
    ((ancestors.filter (fun a => a.kind = CKind.namespaceDecl)).map (fun a => a.spelling))

/-- parser.py `LibclangParser._has_reflection_annotation`: a
`clang::annotate` child whose lowercase spelling contains `reflect`, or
the textual marker on the declaration's line or the preceding one. -/
def hasReflectionAnnot (children : List Cursor) (lines : List String)
    (cursorLine : Nat) (marker : String) : Bool :=
  if children.any (fun ch =>
       ch.info.kind = CKind.annotateAttr
         && containsSubstr (String.toLower ch.info.spelling) "reflect") then
    true
  else if lines ≠ [] ∧ cursorLine > 0 then
    let lineIdx := cursorLine - 1
    if lineIdx < lines.length then
      if containsSubstr (lines.getD lineIdx "") marker then true
      else if lineIdx > 0 then containsSubstr (lines.getD (lineIdx - 1) "") marker
      else false
    else false
  else false

/-- parser.py `LibclangParser._is_override`: scan the declaration's
tokens for the `override` keyword. -/
def isOverrideOf (tokens : List String) : Bool :=
  tokens.contains "override"

/-- parser.py `LibclangParser._parse_enum`: returns `None` for an unnamed
enum, and (per the source's TODO) `None` for every named enum as well —
enum extraction is left to the regex fallback. -/
def LibclangParser.parseEnum (spelling : String) : Option EnumData :=
  if spelling = "" then none else none

/-- The dynamically built `class_pattern` of `_parse_class`
(`(?:struct|class)\s+NAME\s*[^{]*{([^}]*BE_CLASS\s*\([^)]*\)[^}]*)}`). -/
def classBodyPattern (class_name : String) : Rx :=
  Rx.seq [Rx.alt [rlit "struct", rlit "class"], Rx.plus CharClass.space, rlit class_name,
          Rx.star CharClass.space, Rx.star (CharClass.notIn [lbrace]), Rx.lit [lbrace],
          Rx.grp 1 (Rx.seq [Rx.star (CharClass.notIn [rbrace]), rlit "BE_CLASS",
                            Rx.star CharClass.space, rlit "(",
                            Rx.star (CharClass.notIn [')']), rlit ")",
                            Rx.star (CharClass.notIn [rbrace])]),
          Rx.lit [rbrace]]

/-- Fuel-driven Python `str.split(sep)`. -/
def splitOnSepAux (sep : List Char) : Nat → List Char → List Char → List (List Char)
  | 0, acc, s => [acc.reverse ++ s]
  | _ + 1, acc, [] => [acc.reverse]
  | fuel + 1, acc, c :: rest =>
    if sep.isPrefixOf (c :: rest) then
      acc.reverse :: splitOnSepAux sep fuel [] ((c :: rest).drop sep.length)
    else splitOnSepAux sep fuel (c :: acc) rest

/-- Python `s.split(sep)[-1]`. -/
def pySplitLast (s : String) (sep : String) : String :=
  match (splitOnSepAux sep.data (s.data.length + 1) [] s.data).getLast? with
  | some l => String.mk l
  | none => s

/-- parser.py `LibclangParser._parse_class` (including the inlined member
walk of `_parse_class_members`): byte-scan the class body for the
`BE_CLASS` macro, then collect namespace-derived names, the first base
specifier, and annotated fields and methods. -/
def LibclangParser.parseClass (info : CursorInfo) (children : List Cursor)
    (ancestors : List CursorInfo) (fileContent : Option String)
    (sourcePath : String) : Option ClassData :=
  let class_name := info.spelling
  if class_name = "" then none
  else
    let beClass :=
      match fileContent with
      | none => (false, false)
      | some content =>
        match rxSearch content.data (classBodyPattern class_name) 0 with
        | none => (false, false)
        | some m =>
          let class_body := ((m.group content.data 1).getD "").data
          match rxSearch class_body BE_CLASS_MACRO_PATTERN 0 with
          | none => (false, false)
          | some bm =>
            if (bm.group class_body 1).getD "" = class_name then
              (true,
               match bm.group class_body 2 with
               | some o => o ≠ "" ∧ pyUpper o = "FACTORY_BASE"
               | none => false)
            else (false, false)
    if !beClass.1 then none
    else
      let ns := getNamespaceOf ancestors
      let full_qualified := if ns ≠ "" then ns ++ "::" ++ class_name else class_name
      let qualified :=
        if "BECore::".data.isPrefixOf ns.data then
          String.mk (ns.data.drop 8) ++ "::" ++ class_name
        else if ns = "BECore" then class_name
        else full_qualified
      let parent_class :=
        match children.find? (fun ch => ch.info.kind = CKind.cxxBaseSpec) with
        | some ch =>
          let p := ch.info.typeSpelling
          some (if containsSubstr p "::" then pySplitLast p "::" else p)
        | none => none
      let lines := match fileContent with
                   | some c => splitLines c
                   | none => []
      let fields := children.filterMap (fun ch =>
        if ch.info.kind = CKind.fieldDecl
            ∧ hasReflectionAnnot ch.children lines ch.info.line "BE_REFLECT_FIELD" then
          some (FieldData.make ch.info.spelling ch.info.typeSpelling
            (ch.info.line : Int) (ch.info.col : Int) false)
        else none)
      let methods := children.filterMap (fun ch =>
        if ch.info.kind = CKind.cxxMethod
            ∧ hasReflectionAnnot ch.children lines ch.info.line "BE_FUNCTION" then
          some { name := ch.info.spelling
                 return_type := ch.info.resultTypeSpelling
                 params := ch.info.args.map (fun a =>
                   ({ name := a.1, type_name := a.2 } : MethodParam))
                 is_const := ch.info.isConstMethod
                 is_virtual := ch.info.isVirtualMethod
                 is_override := isOverrideOf ch.info.tokens
                 line := (ch.info.line : Int) }
        else none)
      some { name := class_name
             qualified_name := qualified
             full_qualified_name := full_qualified
             namespace_ := ns
             fields := fields
             methods := methods
             is_factory_base := beClass.2
             parent_class := parent_class
             source_file := sourcePath
             line := (info.line : Int) }

mutual

/-- parser.py `LibclangParser._walk_ast`: nodes located in another file
are skipped but traversal continues; reflected classes and enums are
appended in walk order. -/
def walkAst (sourcePath : String) (fileContent : Option String) :
    Cursor → List CursorInfo → List ClassData × List EnumData →
    List ClassData × List EnumData
  | Cursor.node info children, ancestors, acc =>
    if (match info.locFile with
        | some f => f != sourcePath
        | none => false) then
      walkAstList sourcePath fileContent children (ancestors ++ [info]) acc
    else
      let acc1 :=
        if info.kind = CKind.classDecl ∨ info.kind = CKind.structDecl then
          match LibclangParser.parseClass info children ancestors fileContent sourcePath with
          | some cd => (acc.1 ++ [cd], acc.2)
          | none => acc
        else if info.kind = CKind.enumDecl then
          match LibclangParser.parseEnum info.spelling with
          | some ed => (acc.1, acc.2 ++ [ed])
          | none => acc
        else acc
      walkAstList sourcePath fileContent children (ancestors ++ [info]) acc1

/-- Walk a list of sibling cursors in order. -/
def walkAstList (sourcePath : String) (fileContent : Option String) :
    List Cursor → List CursorInfo → List ClassData × List EnumData →
    List ClassData × List EnumData
  | [], _, acc => acc
  | c :: rest, ancestors, acc =>
    walkAstList sourcePath fileContent rest ancestors
      (walkAst sourcePath fileContent c ancestors acc)

end

/-- parser.py `LibclangParser.parse_file`: `tu` is the outcome of the
external `index.parse` call (`none` when it raised, i.e. the native AST
could not construct a translation unit); on failure the source falls
back to the regex parser over the same file, otherwise it walks the AST. -/
def LibclangParser.parseFile (tu : Option Cursor) (fileContent : Option String)
    (sourcePath : String) : List ClassData × List EnumData :=
  match tu with
  | none => RegexParser.parseFile fileContent sourcePath
  | some root => walkAst sourcePath fileContent root [] ([], [])

/-! ## meta_generator.py : the per-file driver step -/

/-- The body of the driver's per-file loop (meta_generator.py `main`):
`parse_file` then `cache.update_file` inside `try`; any exception is
counted and the file skipped, leaving the cache untouched. The outcome
of `parse_file` is passed as an `Except` value; the returned number is
the increment of `error_count`. -/
def driverProcessFile (files : List (String × FileMetadata)) (pathStr : String)
    (outcome : Except PyExn (List ClassData × List EnumData))
    (content : Option (List Nat)) (now : String) :
    List (String × FileMetadata) × Nat :=
  match outcome with
  | Except.error _ => (files, 1)
  | Except.ok (cs, es) => (MetadataCache.updateFile files pathStr cs es content now, 0)

/-! ## Specification-side definitions

These follow the spec's words (not the source) and are compared with the
embedded source functions. -/

/-- Length of the longest common prefix of two lists. -/
def commonPrefixLen : List Char → List Char → Nat
  | a :: as, b :: bs => if a = b then commonPrefixLen as bs + 1 else 0
  | _, _ => 0

/-- The longest common suffix of two strings' character lists. -/
def longestCommonSuffix (a b : List Char) : List Char :=
  (a.reverse.take (commonPrefixLen a.reverse b.reverse)).reverse

/-- The spec's `strip_leading_I` read literally ("with a leading `I`
stripped if present"): strip whenever the first character is `I`. -/
def stripLeadingI (b : List Char) : List Char :=
  if b.take 1 = ['I'] then b.drop 1 else b

/-- The claim's short-name formula: remove from `D` the longest common
suffix `s` of `D` and `strip_leading_I(B)` when `s` is non-empty and
shorter than `D`, else return `D` unchanged. -/
def shortNameClaim (D B : String) : String :=
  let d := D.data
  let s := longestCommonSuffix d (stripLeadingI B.data)
  if s ≠ [] ∧ s.length < d.length then String.mk (d.take (d.length - s.length)) else D

/-- The amended short-name formula: identical, except the base's leading
`I` is stripped only when the base name is longer than one character, as
the source does. -/
def shortNameAmended (D B : String) : String :=
  let d := D.data
  let b := if B.data.take 1 = ['I'] ∧ B.data.length > 1 then B.data.drop 1 else B.data
  let s := longestCommonSuffix d b
  if s ≠ [] ∧ s.length < d.length then String.mk (d.take (d.length - s.length)) else D

/-- The closed set of primitive scalar/string names as the claim and the
glossary enumerate them. -/
def specPrimitiveNamesC8 : List String :=
  ["bool",
   "int8_t", "int16_t", "int32_t", "int64_t",
   "uint8_t", "uint16_t", "uint32_t", "uint64_t",
   "signed char", "unsigned char",
   "short", "unsigned short",
   "int", "unsigned int",
   "long", "unsigned long",
   "long long", "unsigned long long",
   "float", "double",
   "char", "wchar_t", "char8_t", "char16_t", "char32_t",
   "eastl::string", "std::string", "PoolString",
   "eastl::basic_string<char>", "std::basic_string<char>"]

/-- The claim's string-template prefixes. -/
def specStringTemplatePrefixesC8 : List String :=
  ["eastl::basic_string", "std::basic_string", "PoolString"]

/-- The claim's primitive-type characterization: clean the spelling
(remove `const `/`volatile `, trailing `&`/`*`, surrounding whitespace),
then exact membership in the closed set or one of the template prefixes
at the front. -/
def specIsPrimitiveC8 (t : String) : Bool :=
  let ct := String.mk (pyStrip (pyRstripSet ['&', '*']
    (removeSubstrAll "volatile ".data (removeSubstrAll "const ".data t.data))))
  specPrimitiveNamesC8.contains ct
    || specStringTemplatePrefixesC8.any (fun p => p.data.isPrefixOf ct.data)

/-- The invariant `__post_init__` maintains on every constructed
`FieldData`: a primitive type spelling implies the flag. -/
def FieldData.wf (f : FieldData) : Prop :=
  is_primitive_type f.type_name = true → f.is_primitive = true

/-! ## Helper lemmas on dictionaries -/

/-- Updating key `k` does not touch the entry of any other key. -/
theorem dictLookup_dictInsert_ne {α : Type} (files : List (String × α))
    (k g : String) (v : α) (hne : g ≠ k) :
    dictLookup (dictInsert files k v) g = dictLookup files g := by
  induction files with
  | nil => simp [dictInsert, dictLookup, Ne.symm hne]
  | cons hd tl ih =>
    obtain ⟨k0, v0⟩ := hd
    by_cases hk : k0 = k
    · subst hk
      simp [dictInsert, dictLookup, Ne.symm hne]
    · simp [dictInsert, hk, dictLookup]
      by_cases hg : k0 = g
      · simp [hg]
      · simp [hg, ih]

/-- Updating key `k` makes its entry the inserted value. -/
theorem dictLookup_dictInsert_self {α : Type} (files : List (String × α))
    (k : String) (v : α) :
    dictLookup (dictInsert files k v) k = some v := by
  induction files with
  | nil => simp [dictInsert, dictLookup]
  | cons hd tl ih =>
    obtain ⟨k0, v0⟩ := hd
    by_cases hk : k0 = k
    · subst hk
      simp [dictInsert, dictLookup]
    · simp [dictInsert, hk, dictLookup, ih]

/-! ## Claim C1 : schema gate of the cache load -/

/-- C1: for every cache file whose top-level version string differs from
the compiled-in `CACHE_VERSION` ("1.1"), or whose content is malformed
JSON, `MetadataCache.load` returns false, leaves the files map empty and
raises no exception. -/
theorem claim_c1_schema_gate (disk : Option Json)
    (h : disk = none ∨ ∃ kvs, disk = some (Json.obj kvs) ∧
        (∀ v, dictLookup kvs "version" = some (Json.str v) →
          v ≠ MetadataCache.CACHE_VERSION)) :
    MetadataCache.load disk = Except.ok (false, []) := by
  rcases h with h | ⟨kvs, h, hv⟩
  · subst h; rfl
  · subst h
    unfold MetadataCache.load
    cases hl : dictLookup kvs "version" with
    | none => simp [hl]
    | some j =>
      cases j with
      | str v =>
        have hne : v ≠ MetadataCache.CACHE_VERSION := hv v hl
        simp [hl, hne]
      | null => simp [hl]
      | bool b => simp [hl]
      | num n => simp [hl]
      | arr xs => simp [hl]
      | obj o => simp [hl]

/-- Witness for C1 at a concrete version-mismatched cache object. -/
theorem claim_c1_schema_gate_witness :
    MetadataCache.load (some (Json.obj [("version", Json.str "1.0")]))
      = Except.ok (false, []) :=
  claim_c1_schema_gate _ (Or.inr ⟨[("version", Json.str "1.0")], rfl, by
    intro v hv
    simp [dictLookup] at hv
    subst hv
    decide⟩)

/-! ## Claim C6 : unreadable files hash to "" and force a reparse -/

/-- C6: a path that cannot be opened hashes to the empty string, and since
the empty string differs from any stored non-empty hash, such a cached
file is reported changed on the next run. -/
theorem claim_c6_empty_hash_forces_reparse :
    MetadataCache.getFileHash none = "" ∧
    ∀ (files : List (String × FileMetadata)) (pathStr : String) (meta : FileMetadata),
      dictLookup files pathStr = some meta → meta.content_hash ≠ "" →
      MetadataCache.isFileChanged files pathStr none = true := by
  refine ⟨rfl, ?_⟩
  intro files pathStr meta hl hne
  simp [MetadataCache.isFileChanged, hl, MetadataCache.getFileHash]
  exact Ne.symm hne

/-- Witness for C6 at a concrete one-entry cache. -/
theorem claim_c6_witness :
    MetadataCache.isFileChanged
      [("/p/a.h", { path := "/p/a.h", content_hash := "ab", last_scanned := "t" })]
      "/p/a.h" none = true :=
  claim_c6_empty_hash_forces_reparse.2 _ _ _ (by rfl) (by decide)

/-! ## Claim C9 : update_file never touches another file's entry -/

/-- C9: for every cache state and distinct (resolved) paths `f` and `g`,
`update_file f` leaves the stored entry of `g` unchanged. -/
theorem claim_c9_no_cross_pollination :
    ∀ (files : List (String × FileMetadata)) (f g : String)
      (classes : List ClassData) (enums : List EnumData)
      (content : Option (List Nat)) (now : String),
      g ≠ f →
      dictLookup (MetadataCache.updateFile files f classes enums content now) g
        = dictLookup files g := by
  intro files f g cs es content now hne
  unfold MetadataCache.updateFile
  exact dictLookup_dictInsert_ne files f g _ hne

/-- Sample entry used by the C9 witness. -/
def c9MetaA : FileMetadata := { path := "/a.h", content_hash := "ha", last_scanned := "t" }

/-- Second sample entry used by the C9 witness. -/
def c9MetaB : FileMetadata := { path := "/b.h", content_hash := "hb", last_scanned := "t" }

/-- Witness for C9: updating `/a.h` keeps `/b.h` intact. -/
theorem claim_c9_witness :
    dictLookup (MetadataCache.updateFile [("/a.h", c9MetaA), ("/b.h", c9MetaB)]
        "/a.h" [] [] none "t2") "/b.h" = some c9MetaB :=
  (claim_c9_no_cross_pollination _ _ _ _ _ _ _ (by decide)).trans rfl

/-! ## Claim C10 : every constructed FieldData obeys the primitive flag -/

/-- C10: every `FieldData`, whether built by the Python constructor
(`FieldData.make`, which runs `__post_init__`) or decoded by
`from_dict`, has `is_primitive = true` whenever its type spelling is
primitive. -/
theorem claim_c10_field_primitive_invariant :
    (∀ (name type_name : String) (line column : Int) (ip : Bool),
        is_primitive_type type_name = true →
        (FieldData.make name type_name line column ip).is_primitive = true)
    ∧ (∀ (j : Json) (f : FieldData),
        FieldData.fromDict j = some f →
        is_primitive_type f.type_name = true → f.is_primitive = true) := by
  constructor
  · intro name ty l col ip h
    cases ip <;> simp [FieldData.make, h]
  · intro j f hj hp
    cases j with
    | obj kvs =>
      simp only [FieldData.fromDict] at hj
      cases hn : jReqStr kvs "name" <;> simp [hn] at hj
      cases ht : jReqStr kvs "type_name" <;> simp [ht] at hj
      cases hl2 : jOptInt kvs "line" 0 <;> simp [hl2] at hj
      cases hc : jOptInt kvs "column" 0 <;> simp [hc] at hj
      cases hip : jOptBool kvs "is_primitive" false <;> simp [hip] at hj
      subst hj
      rename_i name ty l col ip
      simp only [FieldData.make] at hp ⊢
      cases ip <;> simp_all
    | null => simp [FieldData.fromDict] at hj
    | bool b => simp [FieldData.fromDict] at hj
    | num n => simp [FieldData.fromDict] at hj
    | str s => simp [FieldData.fromDict] at hj
    | arr xs => simp [FieldData.fromDict] at hj

/-- Witness for C10 at the primitive spelling `int`. -/
theorem claim_c10_witness :
    is_primitive_type "int" = true ∧
    (FieldData.make "count_" "int" 0 0 false).is_primitive = true :=
  ⟨by decide, claim_c10_field_primitive_invariant.1 "count_" "int" 0 0 false (by decide)⟩

/-! ## Claim C7 : factory families -/

/-- Membership in the base-class loop of `build_factory_bases`. -/
theorem mem_buildFactoryBasesLoop (all_classes : List ClassData)
    (include_dirs : List String) :
    ∀ (bs : List ClassData) (fb : FactoryBaseData),
      fb ∈ buildFactoryBasesLoop all_classes include_dirs bs ↔
        ∃ b ∈ bs, fb = mkFactoryBase all_classes include_dirs b ∧
          (mkFactoryBase all_classes include_dirs b).derived ≠ [] := by
  intro bs fb
  induction bs with
  | nil => simp [buildFactoryBasesLoop]
  | cons b rest ih =>
    simp only [buildFactoryBasesLoop]
    by_cases hd : (mkFactoryBase all_classes include_dirs b).derived ≠ []
    · rw [if_pos hd, List.mem_cons, ih]
      constructor
      · rintro (rfl | ⟨b2, hb2, rfl, hne⟩)
        · exact ⟨b, List.mem_cons_self b rest, rfl, hd⟩
        · exact ⟨b2, List.mem_cons_of_mem b hb2, rfl, hne⟩
      · rintro ⟨b2, hb2, rfl, hne⟩
        rcases List.mem_cons.mp hb2 with rfl | hb2
        · exact Or.inl rfl
        · exact Or.inr ⟨b2, hb2, rfl, hne⟩
    · rw [if_neg hd, ih]
      constructor
      · rintro ⟨b2, hb2, rfl, hne⟩
        exact ⟨b2, List.mem_cons_of_mem b hb2, rfl, hne⟩
      · rintro ⟨b2, hb2, rfl, hne⟩
        rcases List.mem_cons.mp hb2 with rfl | hb2
        · exact absurd hne hd
        · exact ⟨b2, hb2, rfl, hne⟩

/-- A family's derived list is non-empty exactly when some cached class
names the base as its direct parent. -/
theorem mkFactoryBase_derived_ne_nil (all_classes : List ClassData)
    (include_dirs : List String) (b : ClassData) :
    (mkFactoryBase all_classes include_dirs b).derived ≠ [] ↔
      ∃ c ∈ all_classes, c.parent_class = some b.name := by
  simp only [mkFactoryBase]
  rw [Ne, List.filterMap_eq_nil_iff]
  push_neg
  constructor
  · rintro ⟨c, hc, hne⟩
    refine ⟨c, hc, ?_⟩
    by_contra h
    simp [h] at hne
  · rintro ⟨c, hc, hp⟩
    exact ⟨c, hc, by simp [hp]⟩

/-- C7: `build_factory_bases` emits a family exactly for the factory-base
classes that have at least one class naming them as direct parent, and
`generate_enum_factory` writes nothing (returns `None`) precisely when a
family's derived list is empty. -/
theorem claim_c7_factory_families :
    (∀ (all_classes : List ClassData) (include_dirs : List String),
      (∀ fb ∈ buildFactoryBases all_classes include_dirs,
          ∃ b ∈ all_classes, b.is_factory_base = true ∧ fb.name = b.name ∧
            ∃ d ∈ all_classes, d.parent_class = some b.name)
      ∧ (∀ b ∈ all_classes, b.is_factory_base = true →
          (∃ d ∈ all_classes, d.parent_class = some b.name) →
          ∃ fb ∈ buildFactoryBases all_classes include_dirs, fb.name = b.name))
    ∧ (∀ (fb : FactoryBaseData) (input_filename : String),
        generateEnumFactory fb input_filename = none ↔ fb.derived = []) := by
  constructor
  · intro all incs
    constructor
    · intro fb hfb
      rw [buildFactoryBases, mem_buildFactoryBasesLoop] at hfb
      obtain ⟨b, hb, rfl, hne⟩ := hfb
      have hbf := List.mem_filter.mp hb
      exact ⟨b, hbf.1, by simpa using hbf.2, rfl,
        (mkFactoryBase_derived_ne_nil all incs b).mp hne⟩
    · intro b hb hbf hder
      refine ⟨mkFactoryBase all incs b, ?_, rfl⟩
      rw [buildFactoryBases, mem_buildFactoryBasesLoop]
      exact ⟨b, List.mem_filter.mpr ⟨hb, by simp [hbf]⟩, rfl,
        (mkFactoryBase_derived_ne_nil all incs b).mpr hder⟩
  · intro fb fname
    unfold generateEnumFactory
    by_cases h : fb.derived = [] <;> simp [h]

/-- Factory base class used by the C7 witness. -/
def c7Base : ClassData :=
  { name := "ISink", qualified_name := "ISink", full_qualified_name := "ISink",
    namespace_ := "", is_factory_base := true }

/-- Derived class used by the C7 witness. -/
def c7Derived : ClassData :=
  { name := "ConsoleSink", qualified_name := "ConsoleSink",
    full_qualified_name := "ConsoleSink", namespace_ := "",
    parent_class := some "ISink", source_file := "/s/ConsoleSink.h" }

/-- Witness for C7: a base with one derived class yields its family. -/
theorem claim_c7_witness :
    ∃ fb ∈ buildFactoryBases [c7Base, c7Derived] [], fb.name = "ISink" :=
  (claim_c7_factory_families.1 [c7Base, c7Derived] []).2 c7Base (by decide)
    (by decide) ⟨c7Derived, by decide, by decide⟩

/-! ## Claim C4 : enum extraction by the parser -/

/-- The libclang enum visitor returns `None` on every cursor spelling. -/
theorem parseEnum_eq_none (s : String) : LibclangParser.parseEnum s = none := by
  unfold LibclangParser.parseEnum
  split <;> rfl

mutual

/-- The AST walk never adds an enum: its enum accumulator is returned
unchanged on every cursor tree. -/
theorem walkAst_enums_preserved (sp : String) (fc : Option String) :
    ∀ (cur : Cursor) (anc : List CursorInfo) (acc : List ClassData × List EnumData),
      (walkAst sp fc cur anc acc).2 = acc.2
  | Cursor.node info children, anc, acc => by
    rw [walkAst]
    by_cases hskip : (match info.locFile with | some f => f != sp | none => false) = true
    · rw [if_pos hskip]
      exact walkAstList_enums_preserved sp fc children (anc ++ [info]) acc
    · rw [if_neg hskip]
      simp only [walkAstList_enums_preserved sp fc children (anc ++ [info])]
      by_cases h1 : info.kind = CKind.classDecl ∨ info.kind = CKind.structDecl
      · rw [if_pos h1]
        cases hm : LibclangParser.parseClass info children anc fc sp <;> simp
      · rw [if_neg h1]
        by_cases h2 : info.kind = CKind.enumDecl
        · rw [if_pos h2]
          simp [parseEnum_eq_none]
        · rw [if_neg h2]

/-- List form of `walkAst_enums_preserved`. -/
theorem walkAstList_enums_preserved (sp : String) (fc : Option String) :
    ∀ (cs : List Cursor) (anc : List CursorInfo) (acc : List ClassData × List EnumData),
      (walkAstList sp fc cs anc acc).2 = acc.2
  | [], _, _ => by rw [walkAstList]
  | c :: rest, anc, acc => by
    rw [walkAstList]
    rw [walkAstList_enums_preserved sp fc rest anc _]
    exact walkAst_enums_preserved sp fc c anc acc

end

/-- Header content used to refute C4: a `BE_REFLECT_ENUM`-marked enum. -/
def c4DemoHeader : String :=
  "BE_REFLECT_ENUM enum class Color : int \x7b Red, Green \x7d;"

/-- Counterexample to C4: on a header carrying a `BE_REFLECT_ENUM` enum,
the regex parser's `parse_file` — and hence the libclang parser's
`parse_file` when the translation unit cannot be built and it falls back
to the regex parser — returns a non-empty enum list. -/
theorem claim_c4_counterexample :
    (RegexParser.parseFile (some c4DemoHeader) "Color.h").2 ≠ [] ∧
    (LibclangParser.parseFile none (some c4DemoHeader) "Color.h").2 ≠ [] := by
  constructor <;> decide

/-- C4 (amended): the libclang AST path of `parse_file` returns an empty
enum list for every translation unit (its enum visitor extracts
nothing), but the regex fallback does extract `BE_REFLECT_ENUM`-marked
enums, so `parse_file`'s enum list is not empty for every header. -/
theorem claim_c4_amended_enum_extraction :
    (∀ (root : Cursor) (fc : Option String) (sp : String),
        (LibclangParser.parseFile (some root) fc sp).2 = [])
    ∧ (RegexParser.parseEnums c4DemoHeader).map (fun e => e.name) = ["Color"] := by
  constructor
  · intro root fc sp
    unfold LibclangParser.parseFile
    exact walkAst_enums_preserved sp fc root [] ([], [])
  · decide

/-! ## Claim C5 : behaviour on a failed translation unit -/

/-- Cached class used by the C5 counterexample. -/
def c5OldClass : ClassData :=
  { name := "Foo", qualified_name := "Foo", full_qualified_name := "Foo", namespace_ := "" }

/-- Previous cache entry used by the C5 counterexample. -/
def c5OldMeta : FileMetadata :=
  { path := "/p/f.h", content_hash := "abc", last_scanned := "t0", classes := [c5OldClass] }

/-- Counterexample to C5: when the native AST cannot construct a
translation unit (and, in this scenario, the file is also unreadable for
the fallback), `parse_file` raises nothing and returns the regex
fallback's empty result, so the driver's loop body replaces the previous
cache entry instead of retaining it. -/
theorem claim_c5_counterexample :
    LibclangParser.parseFile none none "/p/f.h" = ([], []) ∧
    dictLookup (driverProcessFile [("/p/f.h", c5OldMeta)] "/p/f.h"
        (Except.ok (LibclangParser.parseFile none none "/p/f.h")) none "t1").1 "/p/f.h"
      ≠ some c5OldMeta := by
  constructor
  · rfl
  · decide

/-- C5 (amended): on a failed translation unit, `parse_file` raises no
exception and returns the regex fallback's parse of the same file, and
the driver then replaces the file's cache entry with that result; a
previous cache entry is retained (and the error counted, the run
continuing) only when `parse_file` itself raises. -/
theorem claim_c5_amended_parse_error_policy :
    (∀ (fc : Option String) (sp : String),
        LibclangParser.parseFile none fc sp = RegexParser.parseFile fc sp)
    ∧ (∀ (files : List (String × FileMetadata)) (p : String)
        (cs : List ClassData) (es : List EnumData)
        (content : Option (List Nat)) (now : String),
        dictLookup (driverProcessFile files p (Except.ok (cs, es)) content now).1 p
          = some { path := p, content_hash := MetadataCache.getFileHash content,
                   last_scanned := now, classes := cs, enums := es })
    ∧ (∀ (files : List (String × FileMetadata)) (p : String) (e : PyExn)
        (content : Option (List Nat)) (now : String),
        driverProcessFile files p (Except.error e) content now = (files, 1)) := by
  refine ⟨fun _ _ => rfl, ?_, fun _ _ _ _ _ => rfl⟩
  intro files p cs es content now
  unfold driverProcessFile MetadataCache.updateFile
  exact dictLookup_dictInsert_self files p _

/-! ## Claim C8 : the primitive-type predicate -/

/-- Permuted name lists decide membership identically. -/
theorem contains_eq_of_perm (l1 l2 : List String) (h : List.Perm l1 l2) (s : String) :
    l1.contains s = l2.contains s := by
  rw [Bool.eq_iff_iff]
  simp only [List.contains, List.elem_iff]
  exact h.mem_iff

/-- C8: `is_primitive_type t` is true exactly when the cleaned spelling
(after removing `const `/`volatile `, trailing `&`/`*` and surrounding
whitespace) is in the claim's closed set of scalar/string names or
begins with one of the claim's string-template prefixes. -/
theorem claim_c8_primitive_type_characterization (t : String) :
    is_primitive_type t = specIsPrimitiveC8 t := by
  unfold is_primitive_type specIsPrimitiveC8
  simp only [contains_eq_of_perm PRIMITIVE_TYPES specPrimitiveNamesC8 (by decide),
    PRIMITIVE_PATTERNS, specStringTemplatePrefixesC8]

/-! ## Claim C2 : serialization round trip -/

/-- Mapping a serializer then decoding element-wise recovers the list. -/
theorem mapM_roundtrip {α : Type} (td : α → Json) (fd : Json → Option α) :
    ∀ (l : List α), (∀ x ∈ l, fd (td x) = some x) → (l.map td).mapM fd = some l := by
  intro l h
  induction l with
  | nil => rfl
  | cons a as ih =>
    rw [List.map_cons, List.mapM_cons, h a (List.mem_cons_self a as),
      ih (fun x hx => h x (List.mem_cons_of_mem a hx))]
    rfl

/-- Round trip of one field record; the `__post_init__` rerun inside
`from_dict` is the identity exactly on well-formed fields. -/
theorem fieldDataRoundtrip (f : FieldData) (hwf : FieldData.wf f) :
    FieldData.fromDict f.toDict = some f := by
  obtain ⟨name, ty, l, col, ip⟩ := f
  simp only [FieldData.wf] at hwf
  simp only [FieldData.toDict, FieldData.fromDict, jReqStr, jOptInt, jOptBool, dictLookup]
  simp only [FieldData.make]
  cases hip : ip with
  | true => simp
  | false =>
    cases hpt : is_primitive_type ty with
    | true => exact absurd (hwf hpt) (by simp [hip])
    | false => simp [hpt]

/-- Round trip of one inline parameter dictionary. -/
theorem MethodParam.fromDict_inline (p : MethodParam) :
    MethodParam.fromDict
      (Json.obj [("name", Json.str p.name), ("type_name", Json.str p.type_name)]) = some p := by
  obtain ⟨n, t⟩ := p
  simp [MethodParam.fromDict, jReqStr, dictLookup]

/-- Round trip of one method record. -/
theorem methodDataRoundtrip (m : MethodData) :
    MethodData.fromDict m.toDict = some m := by
  obtain ⟨n, rt, ps, ic, iv, io, l⟩ := m
  simp only [MethodData.toDict, MethodData.fromDict, jReqStr, jOptArr, jOptBool, jOptInt,
    dictLookup]
  simp only [String.reduceEq, reduceIte, Option.pure_def, Option.bind_eq_bind, Option.some_bind]
  rw [mapM_roundtrip _ MethodParam.fromDict ps (fun p _ => MethodParam.fromDict_inline p)]
  simp

/-- Round trip of one enum constant. -/
theorem enumValueRoundtrip (v : EnumValue) :
    EnumValue.fromDict v.toDict = some v := by
  obtain ⟨n, val⟩ := v
  cases val <;> simp [EnumValue.toDict, EnumValue.fromDict, jReqStr, jOptIntOrNone, dictLookup]

/-- Round trip of one enum record. -/
theorem enumDataRoundtrip (e : EnumData) :
    EnumData.fromDict e.toDict = some e := by
  obtain ⟨n, qn, ns, ut, vs, l⟩ := e
  simp only [EnumData.toDict, EnumData.fromDict, jReqStr, jOptArr, jOptStr, jOptInt, dictLookup]
  simp only [String.reduceEq, reduceIte, Option.pure_def, Option.bind_eq_bind, Option.some_bind]
  rw [mapM_roundtrip EnumValue.toDict EnumValue.fromDict vs
    (fun v _ => enumValueRoundtrip v)]
  simp

/-- Round trip of one class record, given well-formed fields. -/
theorem classDataRoundtrip (c : ClassData)
    (hwf : ∀ f ∈ c.fields, FieldData.wf f) :
    ClassData.fromDict c.toDict = some c := by
  obtain ⟨n, qn, fqn, ns, fs, ms, ifb, ie, pc, sf, l⟩ := c
  simp only [ClassData.toDict, ClassData.fromDict, jReqStr, jOptArr, jOptBool, jOptStrOrNone,
    jOptStr, jOptInt, dictLookup]
  simp only [String.reduceEq, reduceIte, Option.pure_def, Option.bind_eq_bind, Option.some_bind]
  rw [mapM_roundtrip FieldData.toDict FieldData.fromDict fs
    (fun f hf => fieldDataRoundtrip f (hwf f hf))]
  rw [mapM_roundtrip MethodData.toDict MethodData.fromDict ms
    (fun m _ => methodDataRoundtrip m)]
  cases pc <;> simp

/-- C2: for every `FileMetadata` value (with its nested classes, fields,
methods, enums and enum values) whose fields satisfy the invariant that
Python's `__post_init__` enforces on every constructed `FieldData`,
`from_dict (to_dict m)` recovers `m` exactly. -/
theorem claim_c2_cache_roundtrip (m : FileMetadata)
    (hwf : ∀ c ∈ m.classes, ∀ f ∈ c.fields, FieldData.wf f) :
    FileMetadata.fromDict m.toDict = some m := by
  obtain ⟨p, ch, ls, cs, es⟩ := m
  simp only [FileMetadata.toDict, FileMetadata.fromDict, jReqStr, jOptArr, dictLookup]
  simp only [String.reduceEq, reduceIte, Option.pure_def, Option.bind_eq_bind, Option.some_bind]
  rw [mapM_roundtrip ClassData.toDict ClassData.fromDict cs
    (fun c hc => classDataRoundtrip c (hwf c hc))]
  rw [mapM_roundtrip EnumData.toDict EnumData.fromDict es
    (fun e _ => enumDataRoundtrip e)]
  simp

/-- The field invariant is decidable, so witnesses can be checked. -/
instance : DecidablePred FieldData.wf := fun f => by
  unfold FieldData.wf
  exact inferInstance

/-- Sample metadata exercising every nested entity for the C2 witness. -/
def c2DemoMeta : FileMetadata :=
  { path := "/p/B.h", content_hash := "abc", last_scanned := "t",
    classes := [{ name := "Bar", qualified_name := "Bar", full_qualified_name := "Proj::Bar",
                  namespace_ := "Proj",
                  fields := [FieldData.make "count_" "int" 3 5 false],
                  methods := [{ name := "run", return_type := "void",
                                params := [{ name := "x", type_name := "int" }],
                                is_const := true }],
                  parent_class := some "IBar", source_file := "B.h", line := 2 }],
    enums := [{ name := "E", qualified_name := "E", namespace_ := "",
                values := [{ name := "A" }, { name := "B", value := some 3 }] }] }

/-- Witness for C2 at concrete metadata containing a class with a field,
a method with a parameter, and an enum with values. -/
theorem claim_c2_witness :
    (∀ c ∈ c2DemoMeta.classes, ∀ f ∈ c.fields, FieldData.wf f) ∧
    FileMetadata.fromDict c2DemoMeta.toDict = some c2DemoMeta :=
  ⟨by decide, claim_c2_cache_roundtrip c2DemoMeta (by decide)⟩

/-! ## Claim C3 : short names -/

/-- The common prefix length is at most the first list's length. -/
theorem commonPrefixLen_le_left : ∀ (a b : List Char), commonPrefixLen a b ≤ a.length
  | [], _ => by simp [commonPrefixLen]
  | _ :: _, [] => by simp [commonPrefixLen]
  | a :: as, b :: bs => by
    simp only [commonPrefixLen, List.length_cons]
    by_cases h : a = b
    · simp only [if_pos h]
      exact Nat.succ_le_succ (commonPrefixLen_le_left as bs)
    · simp [if_neg h]

/-- The common prefix length is at most the second list's length. -/
theorem commonPrefixLen_le_right : ∀ (a b : List Char), commonPrefixLen a b ≤ b.length
  | [], _ => by simp [commonPrefixLen]
  | _ :: _, [] => by simp [commonPrefixLen]
  | a :: as, b :: bs => by
    simp only [commonPrefixLen, List.length_cons]
    by_cases h : a = b
    · simp only [if_pos h]
      exact Nat.succ_le_succ (commonPrefixLen_le_right as bs)
    · simp [if_neg h]

/-- Prefixes of bounded length agree exactly up to the common prefix
length. -/
theorem take_eq_take_iff_le_cpl : ∀ (a b : List Char) (k : Nat), k ≤ a.length → k ≤ b.length →
    (a.take k = b.take k ↔ k ≤ commonPrefixLen a b)
  | [], b, k, ha, _ => by
    simp at ha
    subst ha
    simp
  | a :: as, [], k, _, hb => by
    simp at hb
    subst hb
    simp
  | a :: as, b :: bs, 0, _, _ => by simp
  | a :: as, b :: bs, k + 1, ha, hb => by
    simp only [commonPrefixLen]
    by_cases h : a = b
    · subst h
      simp only [if_pos rfl, eq_self_iff_true, if_true, List.take_succ_cons,
        List.cons.injEq, true_and]
      rw [take_eq_take_iff_le_cpl as bs k (by simpa using ha) (by simpa using hb)]
      omega
    · simp [h, List.take_succ_cons]

/-- Python's tail slice is the reversed prefix of the reversed list. -/
theorem pyTailSlice_eq_reverse_take (s : List Char) (i : Nat) :
    pyTailSlice s i = (s.reverse.take i).reverse :=
  List.rtake_eq_reverse_take_reverse s i

/-- The source's suffix loop computes the longest common suffix: with
`i - 1` matching characters confirmed and fuel for the remaining
iterations, it lands on the common prefix length of the reverses. -/
theorem shortNameLoop_eq (c b : List Char) :
    ∀ (fuel i : Nat), 1 ≤ i → i + fuel = min c.length b.length + 1 →
      i - 1 ≤ commonPrefixLen c.reverse b.reverse →
      shortNameLoop c b fuel i (pyTailSlice c (i - 1))
        = pyTailSlice c (commonPrefixLen c.reverse b.reverse) := by
  intro fuel
  induction fuel with
  | zero =>
    intro i h1 h2 h3
    have hK1 : commonPrefixLen c.reverse b.reverse ≤ c.length := by
      simpa using commonPrefixLen_le_left c.reverse b.reverse
    have hK2 : commonPrefixLen c.reverse b.reverse ≤ b.length := by
      simpa using commonPrefixLen_le_right c.reverse b.reverse
    have hi : i - 1 = commonPrefixLen c.reverse b.reverse := by omega
    rw [shortNameLoop, hi]
  | succ fuel ih =>
    intro i h1 h2 h3
    have hK1 : commonPrefixLen c.reverse b.reverse ≤ c.length := by
      simpa using commonPrefixLen_le_left c.reverse b.reverse
    have hK2 : commonPrefixLen c.reverse b.reverse ≤ b.length := by
      simpa using commonPrefixLen_le_right c.reverse b.reverse
    have hic : i ≤ c.length := by omega
    have hib : i ≤ b.length := by omega
    have hiff : (pyTailSlice c i = pyTailSlice b i) ↔
        i ≤ commonPrefixLen c.reverse b.reverse := by
      rw [pyTailSlice_eq_reverse_take c i, pyTailSlice_eq_reverse_take b i,
        List.reverse_inj]
      exact take_eq_take_iff_le_cpl c.reverse b.reverse i (by simpa) (by simpa)
    rw [shortNameLoop]
    by_cases hle : i ≤ commonPrefixLen c.reverse b.reverse
    · rw [if_pos (hiff.mpr hle)]
      have := ih (i + 1) (by omega) (by omega) (by omega)
      simpa using this
    · rw [if_neg (fun hh => hle (hiff.mp hh))]
      have hi : i - 1 = commonPrefixLen c.reverse b.reverse := by
        omega
      rw [hi]

/-- The loop, started as the source starts it, returns the longest
common suffix. -/
theorem shortNameLoop_main (c bs : List Char) :
    shortNameLoop c bs (min c.length bs.length) 1 [] = longestCommonSuffix c bs := by
  have h0 : pyTailSlice c 0 = [] := by simp [pyTailSlice]
  have h := shortNameLoop_eq c bs (min c.length bs.length) 1 (le_refl 1) (by omega) (by simp)
  rw [show (1 : Nat) - 1 = 0 from rfl, h0] at h
  rw [longestCommonSuffix, ← pyTailSlice_eq_reverse_take]
  exact h

/-- List-level form of the short-name computation against its closed
formula. -/
theorem shortName_core (d bs : List Char) :
    (let n := min d.length bs.length
     let cs := shortNameLoop d bs n 1 []
     let sn := if cs ≠ [] ∧ cs.length < d.length then d.take (d.length - cs.length) else d
     String.mk (if sn = [] then d else sn))
    = (let s := longestCommonSuffix d bs
       if s ≠ [] ∧ s.length < d.length then String.mk (d.take (d.length - s.length))
       else String.mk d) := by
  simp only [shortNameLoop_main]
  by_cases hA : longestCommonSuffix d bs ≠ [] ∧ (longestCommonSuffix d bs).length < d.length
  · rw [if_pos hA, if_pos hA]
    have ht : d.take (d.length - (longestCommonSuffix d bs).length) ≠ [] := by
      intro hnil
      have := congrArg List.length hnil
      simp [List.length_take] at this
      omega
    rw [if_neg ht]
  · rw [if_neg hA, if_neg hA]
    simp [ite_self]

/-- The source's `compute_short_name` equals the amended closed formula. -/
theorem compute_short_name_eq_amended (D B : String) :
    compute_short_name D B = shortNameAmended D B := by
  obtain ⟨d⟩ := D
  obtain ⟨bl⟩ := B
  exact shortName_core d
    (if List.take 1 bl = ['I'] ∧ bl.length > 1 then List.drop 1 bl else bl)

/-- The amended formula never returns the empty string on a non-empty
derived name. -/
theorem shortNameAmended_ne_empty (D B : String) (hD : D ≠ "") :
    shortNameAmended D B ≠ "" := by
  obtain ⟨d⟩ := D
  simp only [shortNameAmended]
  generalize (if B.data.take 1 = ['I'] ∧ B.data.length > 1
    then B.data.drop 1 else B.data) = bs
  by_cases hA : longestCommonSuffix d bs ≠ [] ∧
      (longestCommonSuffix d bs).length < d.length
  · rw [if_pos hA]
    intro hc
    have h2 := congrArg String.data hc
    simp only [String.data] at h2
    have h3 := congrArg List.length h2
    have h4 := hA.2
    simp [List.length_take] at h3
    omega
  · rw [if_neg hA]
    exact hD

/-- C3 (amended): `compute_short_name D B` equals `D` with the longest
common suffix of `D` and the base name (leading `I` stripped only when
the base is longer than one character) removed when that suffix is
non-empty and shorter than `D`, else `D` unchanged; the result is
non-empty whenever `D` is non-empty. -/
theorem claim_c3_short_name (D B : String) :
    compute_short_name D B = shortNameAmended D B ∧
    (D ≠ "" → compute_short_name D B ≠ "") := by
  refine ⟨compute_short_name_eq_amended D B, fun hD => ?_⟩
  rw [compute_short_name_eq_amended]
  exact shortNameAmended_ne_empty D B hD

/-- Counterexample to C3 as stated: reading the spec's `strip_leading_I`
literally ("a leading `I` stripped if present"), the base name `I`
strips to the empty string, so the claim's formula leaves `AI`
unchanged, while the source keeps the one-character base and strips the
common suffix `I`, returning `A`; and on the empty derived name the
source returns the empty string, refuting unconditional non-emptiness. -/
theorem claim_c3_counterexample :
    (compute_short_name "AI" "I" = "A" ∧ shortNameClaim "AI" "I" = "AI") ∧
    compute_short_name "" "X" = "" := by
  refine ⟨⟨?_, ?_⟩, ?_⟩ <;> decide

/-- Witness for C3 at the repository's own example pair. -/
theorem claim_c3_witness :
    ("ConsoleSink" : String) ≠ "" ∧
    compute_short_name "ConsoleSink" "ILogSink" = shortNameAmended "ConsoleSink" "ILogSink" ∧
    compute_short_name "ConsoleSink" "ILogSink" ≠ "" :=
  ⟨by decide, (claim_c3_short_name "ConsoleSink" "ILogSink").1,
   (claim_c3_short_name "ConsoleSink" "ILogSink").2 (by decide)⟩
